import Mathlib

/-
Verification of the mutual-approximation partial-assembly functions of
Tudat/SimulationSetup/EstimationSetup/createMutualApproximationPartials.h.

The assembly algorithms of that header are embedded shallowly: data structures
from external headers (link ends, parameter identifiers, partial objects) are
modelled as plain Lean inductive types, external collaborator functions
(position-partial factories, light-time-correction partial construction, the
link-property predicate) are abstracted into an environment record `Env`, and
shared_ptr identity of the per-link scaling object is modelled by an
allocation identifier carried in the scaling record.
-/

namespace Tudat

/-- Link-end roles (observation_models::LinkEndType); the roles relevant to the
mutual-approximation observable family are transmitter, transmitter2 and
receiver; all other roles are collapsed into otherLinkEnd. -/
inductive LinkEndType where
  | transmitter
  | transmitter2
  | receiver
  | otherLinkEnd (n : Nat)
deriving DecidableEq, Repr

/-- A link-end identifier: body name and reference-point name. -/
abbrev LinkEndId := String × String

/-- observation_models::LinkEnds: std::map from link-end role to link-end
identifier, modelled as an association list. -/
abbrev LinkEnds := List (LinkEndType × LinkEndId)

/-- linkEnds.count( type ) of the std::map: the number of entries whose key is
the given role. -/
def linkEndCount (le : LinkEnds) (t : LinkEndType) : Nat :=
  (le.filter (fun e => decide (e.fst = t))).length

/-- estimatable_parameters::EstimatebleParametersEnum, restricted to the two
categories the dynamical-parameter loop distinguishes; every remaining
category is collapsed into otherParameterType. -/
inductive EstimatebleParametersEnum where
  | initial_body_state
  | arc_wise_initial_body_state
  | otherParameterType (n : Nat)
deriving DecidableEq, Repr

/-- estimatable_parameters::EstimatebleParameterIdentifier:
pair< EstimatebleParametersEnum, pair< body name, secondary identifier > >. -/
abbrev ParameterName := EstimatebleParametersEnum × (String × String)

/-- The two observable types appearing in this header's two parallel assembly
paths. -/
inductive ObservableType where
  | mutual_approximation
  | mutual_approximation_with_impact_parameter
deriving DecidableEq, Repr

/-- The concrete scaling classes constructed by the two single-link assembly
functions. -/
inductive ScalingVariant where
  | mutualApproximationScaling
  | modifiedMutualApproximationScaling
  | mutualApproximationWithImpactParameterScaling
deriving DecidableEq, Repr

/-- One scaling-object allocation: the concrete class (variant), the
dependentVariablesInterface handle passed to its constructor, and an
allocation identifier modelling the identity of the freshly allocated
shared_ptr. -/
structure ScalingRecord where
  variant : ScalingVariant
  dependentVariablesInterface : Nat
  allocId : Nat
deriving DecidableEq, Repr

/-- Opaque handle for a CartesianStatePartial produced by an external
position-partial factory. -/
abbrev CartesianStatePartial := Nat

/-- Opaque handle for an observation_models::LightTimeCorrection. -/
abbrev LightTimeCorrection := Nat

/-- Opaque handle for an observation_partials::LightTimeCorrectionPartial. -/
abbrev LightTimeCorrectionPartial := Nat

/-- An observation partial object, as constructed in this header: either a
mutual-approximation-family partial built from a shared scaler, a map of
per-role position partials, the parameter identifier and the per-leg
light-time-correction partial lists, or a partial w.r.t. an observation link
property, which is constructed from the link ends, the observable type and
the parameter only, without any reference to the scaling object. `dim` is
the observable dimension (the template argument of ObservationPartial). -/
inductive ObservationPartial where
  | mutualApprox (dim : Nat) (scaler : ScalingRecord)
      (positionPartials : List (LinkEndType × CartesianStatePartial))
      (parameterName : ParameterName)
      (lightTimeCorrectionPartials : List (List LightTimeCorrectionPartial))
  | wrtLinkProperty (dim : Nat) (linkEnds : LinkEnds)
      (observableType : ObservableType) (parameterName : ParameterName)
deriving DecidableEq, Repr

/-- The scaling object referenced by a partial, when it references one. -/
def scalerOf : ObservationPartial → Option ScalingRecord
  | ObservationPartial.mutualApprox _ s _ _ _ => some s
  | ObservationPartial.wrtLinkProperty _ _ _ _ => none

/-- std::map insertion via operator[] (overwrite an existing key, append
otherwise), on an association list. -/
def mapInsert {K V : Type} [DecidableEq K] (k : K) (v : V) :
    List (K × V) → List (K × V)
  | [] => [(k, v)]
  | (k1, v1) :: rest =>
    if k = k1 then (k, v) :: rest else (k1, v1) :: mapInsert k v rest

/-- std::map lookup on an association list. -/
def mapLookup {K V : Type} [DecidableEq K] (k : K) : List (K × V) → Option V
  | [] => none
  | (k1, v1) :: rest => if k = k1 then some v1 else mapLookup k rest

/-- An estimated initial-dynamical-state parameter (only its identifier is
consulted by this header). -/
structure InitialStateParameter where
  parameterName : ParameterName
deriving DecidableEq, Repr

/-- estimatable_parameters::EstimatableParameterSet, through the three views
this header consumes: getEstimatedInitialStateParameters (solve order),
getDoubleParameters (std::map int -> parameter, ascending index) and
getVectorParameters (std::map int -> parameter with its size). -/
structure EstimatableParameterSet where
  initialStateParameters : List InitialStateParameter
  doubleParameters : List (Int × ParameterName)
  vectorParameters : List (Int × ParameterName × Nat)
deriving DecidableEq, Repr

/-- External collaborators of the assembly functions, abstracted as oracles:
the Cartesian-state partial factories (createCartesianStatePartials.h), the
number of light-time-correction partial functions a constructed partial ends
up owning for a given parameter (mutualApproximationPartial.h), the creation
of light-time-correction partials from one leg's correction models
(createLightTimeCorrectionPartials.h), the non-nullness of the link-property
partial constructor and the isParameterObservationLinkProperty predicate
(estimatable parameter headers). The assembly code under verification is a
function of these. -/
structure Env where
  positionPartialsWrtBody :
      LinkEnds → String → List (LinkEndType × CartesianStatePartial)
  positionPartialsWrtParameter :
      LinkEnds → ParameterName → List (LinkEndType × CartesianStatePartial)
  numLightTimeCorrectionPartialFunctions :
      ParameterName → List (List LightTimeCorrectionPartial) → Nat
  createLightTimeCorrectionPartials :
      List LightTimeCorrection → List LightTimeCorrectionPartial
  linkPropertyPartialExists : LinkEnds → ParameterName → Bool
  isParameterObservationLinkProperty : EstimatebleParametersEnum → Bool

/-- The message of the fatal leg-count check and of the batch diagnostic
(identical text in the source, lines 136-137 and 310-311). -/
def mutualApproximationLegCountError (n : Nat) : String :=
  "Error when making mutual approximation partials, light time corrections for "
    ++ toString n ++ " links found, instead of 2."

/-- The message thrown when a dynamical parameter's category is not an
initial-state category (source, line 182). -/
def couldNotIdentifyParameterError : String :=
  "Error when making mutual approximation partials, could not identify parameter"

/-- The message thrown by the batch function when a link misses one of the
three required roles (source, line 301). -/
def missingLinkEndError : String :=
  "Error when making mutual approximation partials, did not find both transmitter, transmitter2 and receiver in link ends"

/-- The parameter identifier under which a body's initial state is looked up
by the partial built for a body position. -/
def bodyStateParameterId (bodyToEstimate : String) : ParameterName :=
  (EstimatebleParametersEnum.initial_body_state, (bodyToEstimate, ""))

/-- createMutualApproximationPartialWrtParameter (source, lines 72-99): build
the position partials for the parameter, construct a test partial, and keep
it exactly when the position-partial map is non-empty or the constructed
partial owns at least one light-time-correction partial function. -/
def createMutualApproximationPartialWrtParameter (env : Env)
    (mutualApproximationLinkEnds : LinkEnds) (parameterToEstimate : ParameterName)
    (mutualApproximationScaler : ScalingRecord)
    (lightTimeCorrectionPartialObjects : List (List LightTimeCorrectionPartial)) :
    Option ObservationPartial :=
  let positionPartials :=
    env.positionPartialsWrtParameter mutualApproximationLinkEnds parameterToEstimate
  let testMutualApproximationPartial :=
    ObservationPartial.mutualApprox 1 mutualApproximationScaler positionPartials
      parameterToEstimate lightTimeCorrectionPartialObjects
  if 0 < positionPartials.length ∨
      0 < env.numLightTimeCorrectionPartialFunctions parameterToEstimate
            lightTimeCorrectionPartialObjects then
    some testMutualApproximationPartial
  else
    none

/-- Modelled from the spec: the body of
createMutualApproximationPartialWrtBodyPosition is in a .cpp file absent from
the sources; only its declaration (source, lines 50-57) is present. Per the
spec (PositionPartialFactory, section 4.2): derive the per-role position
partials for the body, and withhold the partial (nullptr, "no dependency")
exactly when the position-partial set is empty and no correction chain
contributes a partial for this parameter. -/
def createMutualApproximationPartialWrtBodyPosition (env : Env)
    (mutualApproximationLinkEnds : LinkEnds) (bodyToEstimate : String)
    (mutualApproximationScaler : ScalingRecord)
    (lightTimeCorrectionPartialObjects : List (List LightTimeCorrectionPartial)) :
    Option ObservationPartial :=
  let positionPartials :=
    env.positionPartialsWrtBody mutualApproximationLinkEnds bodyToEstimate
  let testMutualApproximationPartial :=
    ObservationPartial.mutualApprox 1 mutualApproximationScaler positionPartials
      (bodyStateParameterId bodyToEstimate) lightTimeCorrectionPartialObjects
  if 0 < positionPartials.length ∨
      0 < env.numLightTimeCorrectionPartialFunctions
            (bodyStateParameterId bodyToEstimate)
            lightTimeCorrectionPartialObjects then
    some testMutualApproximationPartial
  else
    none

/-- Modelled from the spec: createObservationPartialWrtLinkProperty is defined
in a header absent from the sources. Per the spec (section 4.2(b)) it is a
generic link-property partial constructor, parametrized only by the
observable's total dimensionality, bypassing the position partials; whether a
partial exists for a (link, parameter) pair is the oracle
linkPropertyPartialExists. Its call sites in the source (lines 241-242 and
527-528) pass it no scaling object, so the constructed partial holds none. -/
def createObservationPartialWrtLinkProperty (env : Env) (dim : Nat)
    (linkEnds : LinkEnds) (observableType : ObservableType)
    (parameterToEstimate : ParameterName) : Option ObservationPartial :=
  if env.linkPropertyPartialExists linkEnds parameterToEstimate then
    some (ObservationPartial.wrtLinkProperty dim linkEnds observableType
      parameterToEstimate)
  else
    none

/-- The body-identification switch of the dynamical-parameter loop (source,
lines 170-183): initial_body_state and arc_wise_initial_body_state resolve to
the body name carried in the identifier; any other category does not. -/
def getAcceleratedBody : ParameterName → Option String
  | (EstimatebleParametersEnum.initial_body_state, (b, _)) => some b
  | (EstimatebleParametersEnum.arc_wise_initial_body_state, (b, _)) => some b
  | (EstimatebleParametersEnum.otherParameterType _, _) => none

/-- SingleLinkObservationPartialList: std::map from the index pair
(start index, size) to the observation partial. -/
abbrev SingleLinkObservationPartialList := List ((Int × Int) × ObservationPartial)

/-- The initial-dynamical-state loop of the single-link
createMutualApproximationPartials (source, lines 167-200): resolve the body
(throwing when the category is not an initial-state category), attempt the
body-position partial, insert it at (currentIndex, 6) when non-null, and
unconditionally advance currentIndex by 6. -/
def initialStateParameterLoop (env : Env) (linkEnds : LinkEnds)
    (scaler : ScalingRecord)
    (ltcpo : List (List LightTimeCorrectionPartial)) :
    List InitialStateParameter → Int → SingleLinkObservationPartialList →
    Except String (SingleLinkObservationPartialList × Int)
  | [], currentIndex, acc => Except.ok (acc, currentIndex)
  | p :: rest, currentIndex, acc =>
    match getAcceleratedBody p.parameterName with
    | none => Except.error couldNotIdentifyParameterError
    | some acceleratedBody =>
      let currentPartial := createMutualApproximationPartialWrtBodyPosition env
        linkEnds acceleratedBody scaler ltcpo
      let acc1 := match currentPartial with
        | some cp => mapInsert (currentIndex, (6 : Int)) cp acc
        | none => acc
      initialStateParameterLoop env linkEnds scaler ltcpo rest
        (currentIndex + 6) acc1

/-- The double-parameter loop of the single-link
createMutualApproximationPartials (source, lines 202-220): every double
parameter goes through createMutualApproximationPartialWrtParameter; a
non-null result is inserted at (parameter index, 1). -/
def doubleParameterLoop (env : Env) (linkEnds : LinkEnds)
    (scaler : ScalingRecord)
    (ltcpo : List (List LightTimeCorrectionPartial)) :
    List (Int × ParameterName) → SingleLinkObservationPartialList →
    SingleLinkObservationPartialList
  | [], acc => acc
  | (idx, pname) :: rest, acc =>
    let currentPartial := createMutualApproximationPartialWrtParameter env
      linkEnds pname scaler ltcpo
    let acc1 := match currentPartial with
      | some cp => mapInsert (idx, (1 : Int)) cp acc
      | none => acc
    doubleParameterLoop env linkEnds scaler ltcpo rest acc1

/-- The dispatch of the vector-parameter loop of the single-link
createMutualApproximationPartials (source, lines 233-243): a parameter whose
category is an observation link property goes to
createObservationPartialWrtLinkProperty (dimension 1, observable
mutual_approximation), every other parameter goes through
createMutualApproximationPartialWrtParameter. -/
def vectorParameterPartial (env : Env) (linkEnds : LinkEnds)
    (pname : ParameterName) (scaler : ScalingRecord)
    (ltcpo : List (List LightTimeCorrectionPartial)) :
    Option ObservationPartial :=
  if ¬ env.isParameterObservationLinkProperty pname.fst then
    createMutualApproximationPartialWrtParameter env linkEnds pname scaler ltcpo
  else
    createObservationPartialWrtLinkProperty env 1 linkEnds
      ObservableType.mutual_approximation pname

/-- The vector-parameter loop of the single-link
createMutualApproximationPartials (source, lines 222-254): dispatch per
parameter kind (vectorParameterPartial); a non-null result is inserted at
(parameter index, parameter size). -/
def vectorParameterLoop (env : Env) (linkEnds : LinkEnds)
    (scaler : ScalingRecord)
    (ltcpo : List (List LightTimeCorrectionPartial)) :
    List (Int × ParameterName × Nat) → SingleLinkObservationPartialList →
    SingleLinkObservationPartialList
  | [], acc => acc
  | (idx, pname, psize) :: rest, acc =>
    let currentPartial := vectorParameterPartial env linkEnds pname scaler ltcpo
    let acc1 := match currentPartial with
      | some cp => mapInsert (idx, (psize : Int)) cp acc
      | none => acc
    vectorParameterLoop env linkEnds scaler ltcpo rest acc1

/-- createMutualApproximationPartials for a single set of link ends (source,
lines 117-256): check the light-time-correction leg count (fatal when nonzero
and different from 2), build the per-leg correction partials, construct the
one shared scaling object (variant selected by
isCentralInstantUsedAsObservable), run the three parameter loops and return
the block map together with the scaling object. scalingAllocId models the
freshness of the shared_ptr allocated for the scaling object. -/
def createMutualApproximationPartialsSingleLink (env : Env)
    (mutualApproximationLinkEnds : LinkEnds)
    (parametersToEstimate : EstimatableParameterSet)
    (isCentralInstantUsedAsObservable : Bool)
    (lightTimeCorrections : List (List LightTimeCorrection))
    (dependentVariablesInterface : Nat) (scalingAllocId : Nat) :
    Except String (SingleLinkObservationPartialList × ScalingRecord) :=
  if 0 < lightTimeCorrections.length ∧ lightTimeCorrections.length ≠ 2 then
    Except.error (mutualApproximationLegCountError lightTimeCorrections.length)
  else
    let lightTimeCorrectionPartialObjects :=
      lightTimeCorrections.map env.createLightTimeCorrectionPartials
    let mutualApproximationScaling : ScalingRecord :=
      if isCentralInstantUsedAsObservable then
        ⟨ScalingVariant.mutualApproximationScaling,
          dependentVariablesInterface, scalingAllocId⟩
      else
        ⟨ScalingVariant.modifiedMutualApproximationScaling,
          dependentVariablesInterface, scalingAllocId⟩
    match initialStateParameterLoop env mutualApproximationLinkEnds
        mutualApproximationScaling lightTimeCorrectionPartialObjects
        parametersToEstimate.initialStateParameters 0 [] with
    | Except.error e => Except.error e
    | Except.ok (l1, _) =>
      let l2 := doubleParameterLoop env mutualApproximationLinkEnds
        mutualApproximationScaling lightTimeCorrectionPartialObjects
        parametersToEstimate.doubleParameters l1
      let l3 := vectorParameterLoop env mutualApproximationLinkEnds
        mutualApproximationScaling lightTimeCorrectionPartialObjects
        parametersToEstimate.vectorParameters l2
      Except.ok (l3, mutualApproximationScaling)

/-- The loop body of the batch createMutualApproximationPartials (source,
lines 293-323), processing links in order: check the three required roles
(throw when one is missing), resolve the link's correction groups from the
shared map (a present entry of size different from 2 emits a std::cerr
diagnostic and is passed on unchanged; an absent entry yields empty
corrections), and invoke the single-link assembly. Diagnostics written to
std::cerr are accumulated in the first component of the result; a thrown
exception is the error of the second component. Each link's scaling object
is a fresh allocation. -/
def createMutualApproximationPartialsBatchLoop (env : Env)
    (parametersToEstimate : EstimatableParameterSet)
    (isCentralInstantUsedAsObservable : Bool)
    (lightTimeCorrections : List (LinkEnds × List (List LightTimeCorrection)))
    (dependentVariablesInterface : Nat) :
    List LinkEnds → Nat → List String →
    List (LinkEnds × (SingleLinkObservationPartialList × ScalingRecord)) →
    List String ×
      Except String
        (List (LinkEnds × (SingleLinkObservationPartialList × ScalingRecord)))
  | [], _, diags, acc => (diags, Except.ok acc)
  | le :: rest, nextAllocId, diags, acc =>
    if linkEndCount le LinkEndType.receiver = 0 ∨
        linkEndCount le LinkEndType.transmitter = 0 ∨
        linkEndCount le LinkEndType.transmitter2 = 0 then
      (diags, Except.error missingLinkEndError)
    else
      let lookupResult := mapLookup le lightTimeCorrections
      let diags1 := match lookupResult with
        | some cs =>
          if cs.length ≠ 2 then
            diags ++ [mutualApproximationLegCountError cs.length]
          else diags
        | none => diags
      let currentLightTimeCorrections := match lookupResult with
        | some cs => cs
        | none => []
      match createMutualApproximationPartialsSingleLink env le
          parametersToEstimate isCentralInstantUsedAsObservable
          currentLightTimeCorrections dependentVariablesInterface
          nextAllocId with
      | Except.error e => (diags1, Except.error e)
      | Except.ok r =>
        createMutualApproximationPartialsBatchLoop env parametersToEstimate
          isCentralInstantUsedAsObservable lightTimeCorrections
          dependentVariablesInterface rest (nextAllocId + 1) diags1
          (mapInsert le r acc)

/-- createMutualApproximationPartials over a vector of link ends (source,
lines 274-325). -/
def createMutualApproximationPartialsBatch (env : Env)
    (linkEnds : List LinkEnds)
    (parametersToEstimate : EstimatableParameterSet)
    (isCentralInstantUsedAsObservable : Bool)
    (lightTimeCorrections : List (LinkEnds × List (List LightTimeCorrection)))
    (dependentVariablesInterface : Nat) :
    List String ×
      Except String
        (List (LinkEnds × (SingleLinkObservationPartialList × ScalingRecord))) :=
  createMutualApproximationPartialsBatchLoop env parametersToEstimate
    isCentralInstantUsedAsObservable lightTimeCorrections
    dependentVariablesInterface linkEnds 0 [] []

/-- createMutualApproximationWithImpactParameterPartialWrtParameter (source,
lines 363-391): identical in structure to the dimension-1 variant, with the
dimension-2 partial class. -/
def createMutualApproximationWithImpactParameterPartialWrtParameter (env : Env)
    (mutualApproximationLinkEnds : LinkEnds) (parameterToEstimate : ParameterName)
    (mutualApproximationScaler : ScalingRecord)
    (lightTimeCorrectionPartialObjects : List (List LightTimeCorrectionPartial)) :
    Option ObservationPartial :=
  let positionPartials :=
    env.positionPartialsWrtParameter mutualApproximationLinkEnds parameterToEstimate
  let testMutualApproximationPartial :=
    ObservationPartial.mutualApprox 2 mutualApproximationScaler positionPartials
      parameterToEstimate lightTimeCorrectionPartialObjects
  if 0 < positionPartials.length ∨
      0 < env.numLightTimeCorrectionPartialFunctions parameterToEstimate
            lightTimeCorrectionPartialObjects then
    some testMutualApproximationPartial
  else
    none

/-- Modelled from the spec: as for
createMutualApproximationPartialWrtBodyPosition, the body of
createMutualApproximationWithImpactParameterPartialWrtBodyPosition is in a
.cpp file absent from the sources (declaration at source lines 341-348); per
the spec the partial is withheld exactly when the position-partial set is
empty and no correction chain contributes. -/
def createMutualApproximationWithImpactParameterPartialWrtBodyPosition
    (env : Env) (mutualApproximationLinkEnds : LinkEnds) (bodyToEstimate : String)
    (mutualApproximationScaler : ScalingRecord)
    (lightTimeCorrectionPartialObjects : List (List LightTimeCorrectionPartial)) :
    Option ObservationPartial :=
  let positionPartials :=
    env.positionPartialsWrtBody mutualApproximationLinkEnds bodyToEstimate
  let testMutualApproximationPartial :=
    ObservationPartial.mutualApprox 2 mutualApproximationScaler positionPartials
      (bodyStateParameterId bodyToEstimate) lightTimeCorrectionPartialObjects
  if 0 < positionPartials.length ∨
      0 < env.numLightTimeCorrectionPartialFunctions
            (bodyStateParameterId bodyToEstimate)
            lightTimeCorrectionPartialObjects then
    some testMutualApproximationPartial
  else
    none

/-- The initial-dynamical-state loop of
createMutualApproximationWithImpactParameterPartials (source, lines 452-486),
mirroring the dimension-1 loop. -/
def initialStateParameterLoopWIP (env : Env) (linkEnds : LinkEnds)
    (scaler : ScalingRecord)
    (ltcpo : List (List LightTimeCorrectionPartial)) :
    List InitialStateParameter → Int → SingleLinkObservationPartialList →
    Except String (SingleLinkObservationPartialList × Int)
  | [], currentIndex, acc => Except.ok (acc, currentIndex)
  | p :: rest, currentIndex, acc =>
    match getAcceleratedBody p.parameterName with
    | none => Except.error couldNotIdentifyParameterError
    | some acceleratedBody =>
      let currentPartial :=
        createMutualApproximationWithImpactParameterPartialWrtBodyPosition env
          linkEnds acceleratedBody scaler ltcpo
      let acc1 := match currentPartial with
        | some cp => mapInsert (currentIndex, (6 : Int)) cp acc
        | none => acc
      initialStateParameterLoopWIP env linkEnds scaler ltcpo rest
        (currentIndex + 6) acc1

/-- The double-parameter loop of
createMutualApproximationWithImpactParameterPartials (source, lines 488-506). -/
def doubleParameterLoopWIP (env : Env) (linkEnds : LinkEnds)
    (scaler : ScalingRecord)
    (ltcpo : List (List LightTimeCorrectionPartial)) :
    List (Int × ParameterName) → SingleLinkObservationPartialList →
    SingleLinkObservationPartialList
  | [], acc => acc
  | (idx, pname) :: rest, acc =>
    let currentPartial :=
      createMutualApproximationWithImpactParameterPartialWrtParameter env
        linkEnds pname scaler ltcpo
    let acc1 := match currentPartial with
      | some cp => mapInsert (idx, (1 : Int)) cp acc
      | none => acc
    doubleParameterLoopWIP env linkEnds scaler ltcpo rest acc1

/-- The dispatch of the vector-parameter loop of
createMutualApproximationWithImpactParameterPartials (source, lines 519-529):
link-property parameters go to the dimension-2 link-property constructor with
observable mutual_approximation_with_impact_parameter. -/
def vectorParameterPartialWIP (env : Env) (linkEnds : LinkEnds)
    (pname : ParameterName) (scaler : ScalingRecord)
    (ltcpo : List (List LightTimeCorrectionPartial)) :
    Option ObservationPartial :=
  if ¬ env.isParameterObservationLinkProperty pname.fst then
    createMutualApproximationWithImpactParameterPartialWrtParameter env linkEnds
      pname scaler ltcpo
  else
    createObservationPartialWrtLinkProperty env 2 linkEnds
      ObservableType.mutual_approximation_with_impact_parameter pname

/-- The vector-parameter loop of
createMutualApproximationWithImpactParameterPartials (source, lines 508-540). -/
def vectorParameterLoopWIP (env : Env) (linkEnds : LinkEnds)
    (scaler : ScalingRecord)
    (ltcpo : List (List LightTimeCorrectionPartial)) :
    List (Int × ParameterName × Nat) → SingleLinkObservationPartialList →
    SingleLinkObservationPartialList
  | [], acc => acc
  | (idx, pname, psize) :: rest, acc =>
    let currentPartial := vectorParameterPartialWIP env linkEnds pname scaler ltcpo
    let acc1 := match currentPartial with
      | some cp => mapInsert (idx, (psize : Int)) cp acc
      | none => acc
    vectorParameterLoopWIP env linkEnds scaler ltcpo rest acc1

/-- createMutualApproximationWithImpactParameterPartials for a single set of
link ends (source, lines 409-542): the same algorithm shape as the
dimension-1 variant, with no isCentralInstantUsedAsObservable flag and the
MutualApproximationWithImpactParameterScaling object. -/
def createMutualApproximationWithImpactParameterPartialsSingleLink (env : Env)
    (mutualApproximationLinkEnds : LinkEnds)
    (parametersToEstimate : EstimatableParameterSet)
    (lightTimeCorrections : List (List LightTimeCorrection))
    (dependentVariablesInterface : Nat) (scalingAllocId : Nat) :
    Except String (SingleLinkObservationPartialList × ScalingRecord) :=
  if 0 < lightTimeCorrections.length ∧ lightTimeCorrections.length ≠ 2 then
    Except.error (mutualApproximationLegCountError lightTimeCorrections.length)
  else
    let lightTimeCorrectionPartialObjects :=
      lightTimeCorrections.map env.createLightTimeCorrectionPartials
    let mutualApproximationScaling : ScalingRecord :=
      ⟨ScalingVariant.mutualApproximationWithImpactParameterScaling,
        dependentVariablesInterface, scalingAllocId⟩
    match initialStateParameterLoopWIP env mutualApproximationLinkEnds
        mutualApproximationScaling lightTimeCorrectionPartialObjects
        parametersToEstimate.initialStateParameters 0 [] with
    | Except.error e => Except.error e
    | Except.ok (l1, _) =>
      let l2 := doubleParameterLoopWIP env mutualApproximationLinkEnds
        mutualApproximationScaling lightTimeCorrectionPartialObjects
        parametersToEstimate.doubleParameters l1
      let l3 := vectorParameterLoopWIP env mutualApproximationLinkEnds
        mutualApproximationScaling lightTimeCorrectionPartialObjects
        parametersToEstimate.vectorParameters l2
      Except.ok (l3, mutualApproximationScaling)

/-- Whether an Except value carries a result. -/
def isOkE {α : Type} : Except String α → Bool
  | Except.ok _ => true
  | Except.error _ => false

/-- The dependency condition of createMutualApproximationPartialWrtParameter
(source, line 93): the position-partial map is non-empty or at least one
light-time-correction partial function contributes. -/
def parameterDependencyExists (env : Env) (le : LinkEnds) (p : ParameterName)
    (ltcpo : List (List LightTimeCorrectionPartial)) : Prop :=
  0 < (env.positionPartialsWrtParameter le p).length ∨
    0 < env.numLightTimeCorrectionPartialFunctions p ltcpo

/-- The dependency condition of the body-position partial factory. -/
def bodyDependencyExists (env : Env) (le : LinkEnds) (b : String)
    (ltcpo : List (List LightTimeCorrectionPartial)) : Prop :=
  0 < (env.positionPartialsWrtBody le b).length ∨
    0 < env.numLightTimeCorrectionPartialFunctions (bodyStateParameterId b) ltcpo

/-- Whether the category of a dynamical parameter can be resolved to a body
identifier by the dynamical-parameter loop. -/
def isIdentifiableCategory : EstimatebleParametersEnum → Bool
  | EstimatebleParametersEnum.initial_body_state => true
  | EstimatebleParametersEnum.arc_wise_initial_body_state => true
  | EstimatebleParametersEnum.otherParameterType _ => false

/-- The scaling object the single-link assembly constructs for a flag,
dependentVariablesInterface and allocation id. -/
def scalingOf (flag : Bool) (dvi sid : Nat) : ScalingRecord :=
  if flag then
    ⟨ScalingVariant.mutualApproximationScaling, dvi, sid⟩
  else
    ⟨ScalingVariant.modifiedMutualApproximationScaling, dvi, sid⟩

/-- The index-range keys the single-link assembly may write for a parameter
set: (6 i, 6) for the i-th dynamical parameter, (index, 1) for a double
parameter and (index, size) for a vector parameter. -/
def assembledKeys (ps : EstimatableParameterSet) : List (Int × Int) :=
  ((List.range ps.initialStateParameters.length).map
      fun (i : Nat) => ((6 * (i : Int), (6 : Int)))) ++
    (ps.doubleParameters.map fun d => (d.1, (1 : Int))) ++
    (ps.vectorParameters.map fun v => (v.1, ((v.2.2 : Int))))

theorem mapLookup_mapInsert {K V : Type} [DecidableEq K] (k k1 : K) (v : V)
    (m : List (K × V)) :
    mapLookup k (mapInsert k1 v m) =
      if k = k1 then some v else mapLookup k m := by
  induction m with
  | nil => simp [mapInsert, mapLookup]
  | cons e rest ih =>
    obtain ⟨k2, v2⟩ := e
    by_cases h1 : k1 = k2
    · subst h1
      by_cases h2 : k = k1 <;> simp [mapInsert, mapLookup, h2]
    · by_cases h2 : k = k2
      · subst h2
        have h3 : ¬ k = k1 := fun h => h1 h.symm
        simp [mapInsert, mapLookup, h1, h3]
      · simp [mapInsert, mapLookup, h1, h2, ih]

theorem mem_mapInsert {K V : Type} [DecidableEq K] (k : K) (v : V)
    (m : List (K × V)) (e : K × V) :
    e ∈ mapInsert k v m → e = (k, v) ∨ e ∈ m := by
  induction m with
  | nil => simp [mapInsert]
  | cons e1 rest ih =>
    obtain ⟨k1, v1⟩ := e1
    intro hmem
    by_cases h : k = k1
    · rw [show mapInsert k v ((k1, v1) :: rest) = (k, v) :: rest from by
        simp [mapInsert, h]] at hmem
      rcases List.mem_cons.mp hmem with h1 | h1
      · exact Or.inl h1
      · exact Or.inr (List.mem_cons.mpr (Or.inr h1))
    · rw [show mapInsert k v ((k1, v1) :: rest) =
          (k1, v1) :: mapInsert k v rest from by simp [mapInsert, h]] at hmem
      rcases List.mem_cons.mp hmem with h1 | h1
      · exact Or.inr (List.mem_cons.mpr (Or.inl h1))
      · rcases ih h1 with h2 | h2
        · exact Or.inl h2
        · exact Or.inr (List.mem_cons.mpr (Or.inr h2))

theorem createWrtParameter_isSome (env : Env) (le : LinkEnds)
    (p : ParameterName) (sc : ScalingRecord)
    (ltcpo : List (List LightTimeCorrectionPartial)) :
    (createMutualApproximationPartialWrtParameter env le p sc ltcpo).isSome =
        true ↔
      parameterDependencyExists env le p ltcpo := by
  by_cases h : parameterDependencyExists env le p ltcpo <;>
    simp [createMutualApproximationPartialWrtParameter,
      parameterDependencyExists] at h ⊢

theorem createWrtBodyPosition_isSome (env : Env) (le : LinkEnds) (b : String)
    (sc : ScalingRecord) (ltcpo : List (List LightTimeCorrectionPartial)) :
    (createMutualApproximationPartialWrtBodyPosition env le b sc ltcpo).isSome =
        true ↔
      bodyDependencyExists env le b ltcpo := by
  by_cases h : bodyDependencyExists env le b ltcpo <;>
    simp [createMutualApproximationPartialWrtBodyPosition,
      bodyDependencyExists] at h ⊢

theorem createWrtLinkProperty_isSome (env : Env) (dim : Nat) (le : LinkEnds)
    (ot : ObservableType) (p : ParameterName) :
    (createObservationPartialWrtLinkProperty env dim le ot p).isSome = true ↔
      env.linkPropertyPartialExists le p = true := by
  by_cases h : env.linkPropertyPartialExists le p <;>
    simp [createObservationPartialWrtLinkProperty, h]

theorem getAcceleratedBody_eq_none (p : ParameterName) :
    getAcceleratedBody p = none ↔ isIdentifiableCategory p.fst = false := by
  obtain ⟨c, b, s⟩ := p
  cases c <;> simp [getAcceleratedBody, isIdentifiableCategory]

/-- The keys the dynamical-parameter loop can write when started at a given
running index, for a given number of remaining parameters. -/
def dynamicalKeysFrom (start : Int) : Nat → List (Int × Int)
  | 0 => []
  | n + 1 => (start, (6 : Int)) :: dynamicalKeysFrom (start + 6) n

theorem mem_dynamicalKeysFrom (k : Int × Int) :
    ∀ (n : Nat) (start : Int),
      k ∈ dynamicalKeysFrom start n ↔
        ∃ i : Nat, i < n ∧ k = (start + 6 * (i : Int), (6 : Int)) := by
  intro n
  induction n with
  | zero => intro start; simp [dynamicalKeysFrom]
  | succ n0 ih =>
    intro start
    simp only [dynamicalKeysFrom, List.mem_cons, ih (start + 6)]
    constructor
    · rintro (h | ⟨i, hi, hk⟩)
      · exact ⟨0, by omega, by simpa using h⟩
      · refine ⟨i + 1, by omega, ?_⟩
        rw [hk]
        have : start + 6 + 6 * (i : Int) = start + 6 * ((i + 1 : Nat) : Int) := by
          push_cast; ring
        rw [this]
    · rintro ⟨i, hi, hk⟩
      cases i with
      | zero => exact Or.inl (by simpa using hk)
      | succ i0 =>
        refine Or.inr ⟨i0, by omega, ?_⟩
        rw [hk]
        have : start + 6 * ((i0 + 1 : Nat) : Int) =
            start + 6 + 6 * (i0 : Int) := by push_cast; ring
        rw [this]

theorem initialStateParameterLoop_finalIndex (env : Env) (le : LinkEnds)
    (sc : ScalingRecord) (ltcpo : List (List LightTimeCorrectionPartial)) :
    ∀ (ps : List InitialStateParameter) (start : Int)
      (acc m : SingleLinkObservationPartialList) (fi : Int),
      initialStateParameterLoop env le sc ltcpo ps start acc =
          Except.ok (m, fi) →
      fi = start + 6 * ps.length := by
  intro ps
  induction ps with
  | nil =>
    intro start acc m fi h
    simp only [initialStateParameterLoop, Except.ok.injEq, Prod.mk.injEq] at h
    simp [← h.2]
  | cons p rest ih =>
    intro start acc m fi h
    cases hb : getAcceleratedBody p.parameterName with
    | none => simp [initialStateParameterLoop, hb] at h
    | some b =>
      simp only [initialStateParameterLoop, hb] at h
      have h2 := ih (start + 6) _ m fi h
      simp only [List.length_cons] at h2 ⊢
      push_cast at h2 ⊢
      omega

theorem initialStateParameterLoop_lookup_not_written (env : Env)
    (le : LinkEnds) (sc : ScalingRecord)
    (ltcpo : List (List LightTimeCorrectionPartial)) :
    ∀ (ps : List InitialStateParameter) (start : Int)
      (acc m : SingleLinkObservationPartialList) (fi : Int) (k : Int × Int),
      initialStateParameterLoop env le sc ltcpo ps start acc =
          Except.ok (m, fi) →
      k ∉ dynamicalKeysFrom start ps.length →
      mapLookup k m = mapLookup k acc := by
  intro ps
  induction ps with
  | nil =>
    intro start acc m fi k h _
    simp only [initialStateParameterLoop, Except.ok.injEq, Prod.mk.injEq] at h
    rw [← h.1]
  | cons p rest ih =>
    intro start acc m fi k h hk
    simp only [List.length_cons, dynamicalKeysFrom, List.mem_cons] at hk
    push_neg at hk
    have hk1 : k ≠ (start, (6 : Int)) := hk.1
    have hk2 : k ∉ dynamicalKeysFrom (start + 6) rest.length := hk.2
    cases hb : getAcceleratedBody p.parameterName with
    | none => simp [initialStateParameterLoop, hb] at h
    | some b =>
      simp only [initialStateParameterLoop, hb] at h
      cases hcp : createMutualApproximationPartialWrtBodyPosition env le b sc
          ltcpo with
      | none =>
        rw [hcp] at h
        exact ih (start + 6) _ m fi k h hk2
      | some cp =>
        rw [hcp] at h
        rw [ih (start + 6) _ m fi k h hk2, mapLookup_mapInsert, if_neg hk1]

theorem initialStateParameterLoop_lookup_at (env : Env) (le : LinkEnds)
    (sc : ScalingRecord) (ltcpo : List (List LightTimeCorrectionPartial)) :
    ∀ (ps : List InitialStateParameter) (start : Int)
      (acc m : SingleLinkObservationPartialList) (fi : Int) (i : Nat)
      (hi : i < ps.length) (b : String),
      initialStateParameterLoop env le sc ltcpo ps start acc =
          Except.ok (m, fi) →
      getAcceleratedBody (ps.get ⟨i, hi⟩).parameterName = some b →
      mapLookup (start + 6 * (i : Int), (6 : Int)) acc = none →
      mapLookup (start + 6 * (i : Int), (6 : Int)) m =
        createMutualApproximationPartialWrtBodyPosition env le b sc ltcpo := by
  intro ps
  induction ps with
  | nil => intro start acc m fi i hi; exact absurd hi (by simp)
  | cons p rest ih =>
    intro start acc m fi i hi b h hget hacc
    cases i with
    | zero =>
      have hb : getAcceleratedBody p.parameterName = some b := hget
      simp only [initialStateParameterLoop, hb] at h
      have hkey : start + 6 * ((0 : Nat) : Int) = start := by push_cast; ring
      rw [hkey] at hacc ⊢
      have hnot : (start, (6 : Int)) ∉ dynamicalKeysFrom (start + 6)
          rest.length := by
        intro hmem
        rw [mem_dynamicalKeysFrom] at hmem
        obtain ⟨j, -, hj⟩ := hmem
        have h3 := congrArg Prod.fst hj
        simp at h3
        omega
      cases hcp : createMutualApproximationPartialWrtBodyPosition env le b sc
          ltcpo with
      | none =>
        rw [hcp] at h
        rw [initialStateParameterLoop_lookup_not_written env le sc ltcpo rest
          (start + 6) _ m fi _ h hnot, hacc]
      | some cp =>
        rw [hcp] at h
        rw [initialStateParameterLoop_lookup_not_written env le sc ltcpo rest
          (start + 6) _ m fi _ h hnot, mapLookup_mapInsert, if_pos rfl]
    | succ i0 =>
      have hkey : start + 6 * ((i0 + 1 : Nat) : Int) =
          (start + 6) + 6 * (i0 : Int) := by push_cast; ring
      have hne : (start + 6 * ((i0 + 1 : Nat) : Int), (6 : Int)) ≠
          (start, (6 : Int)) := by
        intro he
        have := congrArg Prod.fst he
        simp at this
        omega
      cases hb : getAcceleratedBody p.parameterName with
      | none => simp [initialStateParameterLoop, hb] at h
      | some b0 =>
        simp only [initialStateParameterLoop, hb] at h
        have hi0 : i0 < rest.length := by
          simpa using Nat.lt_of_succ_lt_succ hi
        cases hcp : createMutualApproximationPartialWrtBodyPosition env le b0
            sc ltcpo with
        | none =>
          rw [hcp] at h
          rw [hkey] at hacc ⊢
          exact ih (start + 6) _ m fi i0 hi0 b h hget hacc
        | some cp =>
          rw [hcp] at h
          have hacc1 : mapLookup (start + 6 * ((i0 + 1 : Nat) : Int), (6 : Int))
              (mapInsert (start, (6 : Int)) cp acc) = none := by
            rw [mapLookup_mapInsert, if_neg hne, hacc]
          rw [hkey] at hacc1 ⊢
          exact ih (start + 6) _ m fi i0 hi0 b h hget hacc1

theorem initialStateParameterLoop_isOk (env : Env) (le : LinkEnds)
    (sc : ScalingRecord) (ltcpo : List (List LightTimeCorrectionPartial)) :
    ∀ (ps : List InitialStateParameter) (start : Int)
      (acc : SingleLinkObservationPartialList),
      (∀ p ∈ ps, isIdentifiableCategory p.parameterName.fst = true) →
      ∃ m fi, initialStateParameterLoop env le sc ltcpo ps start acc =
        Except.ok (m, fi) := by
  intro ps
  induction ps with
  | nil => intro start acc _; exact ⟨acc, start, rfl⟩
  | cons p rest ih =>
    intro start acc hall
    cases hb : getAcceleratedBody p.parameterName with
    | none =>
      exfalso
      have h1 := hall p (List.mem_cons_self _ _)
      rw [getAcceleratedBody_eq_none] at hb
      rw [h1] at hb
      simp at hb
    | some b =>
      simp only [initialStateParameterLoop, hb]
      exact ih (start + 6) _ fun q hq => hall q (List.mem_cons_of_mem _ hq)

theorem initialStateParameterLoop_error (env : Env) (le : LinkEnds)
    (sc : ScalingRecord) (ltcpo : List (List LightTimeCorrectionPartial)) :
    ∀ (ps : List InitialStateParameter) (start : Int)
      (acc : SingleLinkObservationPartialList),
      (∃ p ∈ ps, isIdentifiableCategory p.parameterName.fst = false) →
      initialStateParameterLoop env le sc ltcpo ps start acc =
        Except.error couldNotIdentifyParameterError := by
  intro ps
  induction ps with
  | nil => rintro start acc ⟨p, hp, -⟩; simp at hp
  | cons p rest ih =>
    rintro start acc ⟨q, hq, hqf⟩
    rcases List.mem_cons.mp hq with h1 | h1
    · subst h1
      have h2 : getAcceleratedBody q.parameterName = none :=
        (getAcceleratedBody_eq_none _).mpr hqf
      simp [initialStateParameterLoop, h2]
    · cases hb : getAcceleratedBody p.parameterName with
      | none => simp [initialStateParameterLoop, hb]
      | some b =>
        simp only [initialStateParameterLoop, hb]
        exact ih (start + 6) _ ⟨q, h1, hqf⟩

theorem doubleParameterLoop_lookup_not_mem (env : Env) (le : LinkEnds)
    (sc : ScalingRecord) (ltcpo : List (List LightTimeCorrectionPartial)) :
    ∀ (ds : List (Int × ParameterName))
      (acc : SingleLinkObservationPartialList) (k : Int × Int),
      (∀ d ∈ ds, k ≠ (d.1, (1 : Int))) →
      mapLookup k (doubleParameterLoop env le sc ltcpo ds acc) =
        mapLookup k acc := by
  intro ds
  induction ds with
  | nil => intro acc k _; rfl
  | cons d rest ih =>
    intro acc k hk
    obtain ⟨idx, pname⟩ := d
    have hk1 : k ≠ (idx, (1 : Int)) := hk (idx, pname) (List.mem_cons_self _ _)
    have hk2 : ∀ d ∈ rest, k ≠ (d.1, (1 : Int)) :=
      fun q hq => hk q (List.mem_cons_of_mem _ hq)
    cases hcp : createMutualApproximationPartialWrtParameter env le pname sc
        ltcpo with
    | none => simp only [doubleParameterLoop, hcp]; exact ih acc k hk2
    | some cp =>
      simp only [doubleParameterLoop, hcp]
      rw [ih _ k hk2, mapLookup_mapInsert, if_neg hk1]

theorem doubleParameterLoop_lookup_mem (env : Env) (le : LinkEnds)
    (sc : ScalingRecord) (ltcpo : List (List LightTimeCorrectionPartial)) :
    ∀ (ds : List (Int × ParameterName))
      (acc : SingleLinkObservationPartialList) (idx : Int) (p : ParameterName),
      (ds.map Prod.fst).Nodup → (idx, p) ∈ ds →
      mapLookup (idx, (1 : Int)) acc = none →
      mapLookup (idx, (1 : Int)) (doubleParameterLoop env le sc ltcpo ds acc) =
        createMutualApproximationPartialWrtParameter env le p sc ltcpo := by
  intro ds
  induction ds with
  | nil => intro acc idx p _ hmem; exact absurd hmem (by simp)
  | cons d rest ih =>
    intro acc idx p hnd hmem hacc
    obtain ⟨idx0, p0⟩ := d
    simp only [List.map_cons, List.nodup_cons] at hnd
    rcases List.mem_cons.mp hmem with h1 | h1
    · cases h1
      have hnotin : ∀ d ∈ rest, (idx, (1 : Int)) ≠ (d.1, (1 : Int)) := by
        intro d hd he
        have h2 : idx = d.1 := congrArg Prod.fst he
        exact hnd.1 (List.mem_map.mpr ⟨d, hd, h2.symm⟩)
      cases hcp : createMutualApproximationPartialWrtParameter env le p sc
          ltcpo with
      | none =>
        simp only [doubleParameterLoop, hcp]
        rw [doubleParameterLoop_lookup_not_mem env le sc ltcpo rest _ _ hnotin,
          hacc]
      | some cp =>
        simp only [doubleParameterLoop, hcp]
        rw [doubleParameterLoop_lookup_not_mem env le sc ltcpo rest _ _ hnotin,
          mapLookup_mapInsert, if_pos rfl]
    · have hne : (idx, (1 : Int)) ≠ (idx0, (1 : Int)) := by
        intro he
        have h2 : idx = idx0 := congrArg Prod.fst he
        subst h2
        exact hnd.1 (List.mem_map.mpr ⟨(idx, p), h1, rfl⟩)
      cases hcp : createMutualApproximationPartialWrtParameter env le p0 sc
          ltcpo with
      | none => simp only [doubleParameterLoop, hcp]; exact ih acc idx p hnd.2 h1 hacc
      | some cp =>
        simp only [doubleParameterLoop, hcp]
        refine ih _ idx p hnd.2 h1 ?_
        rw [mapLookup_mapInsert, if_neg hne, hacc]

theorem vectorParameterLoop_lookup_not_mem (env : Env) (le : LinkEnds)
    (sc : ScalingRecord) (ltcpo : List (List LightTimeCorrectionPartial)) :
    ∀ (vs : List (Int × ParameterName × Nat))
      (acc : SingleLinkObservationPartialList) (k : Int × Int),
      (∀ v ∈ vs, k ≠ (v.1, ((v.2.2 : Nat) : Int))) →
      mapLookup k (vectorParameterLoop env le sc ltcpo vs acc) =
        mapLookup k acc := by
  intro vs
  induction vs with
  | nil => intro acc k _; rfl
  | cons v rest ih =>
    intro acc k hk
    obtain ⟨idx, pname, psize⟩ := v
    have hk1 : k ≠ (idx, ((psize : Nat) : Int)) :=
      hk (idx, pname, psize) (List.mem_cons_self _ _)
    have hk2 : ∀ v ∈ rest, k ≠ (v.1, ((v.2.2 : Nat) : Int)) :=
      fun q hq => hk q (List.mem_cons_of_mem _ hq)
    cases hcp : vectorParameterPartial env le pname sc ltcpo with
    | none => simp only [vectorParameterLoop, hcp]; exact ih acc k hk2
    | some cp =>
      simp only [vectorParameterLoop, hcp]
      rw [ih _ k hk2, mapLookup_mapInsert, if_neg hk1]

theorem vectorParameterLoop_lookup_mem (env : Env) (le : LinkEnds)
    (sc : ScalingRecord) (ltcpo : List (List LightTimeCorrectionPartial)) :
    ∀ (vs : List (Int × ParameterName × Nat))
      (acc : SingleLinkObservationPartialList) (idx : Int) (p : ParameterName)
      (psize : Nat),
      (vs.map fun v => (v.1, ((v.2.2 : Nat) : Int))).Nodup →
      (idx, p, psize) ∈ vs →
      mapLookup (idx, ((psize : Nat) : Int)) acc = none →
      mapLookup (idx, ((psize : Nat) : Int))
          (vectorParameterLoop env le sc ltcpo vs acc) =
        vectorParameterPartial env le p sc ltcpo := by
  intro vs
  induction vs with
  | nil => intro acc idx p psize _ hmem; exact absurd hmem (by simp)
  | cons v rest ih =>
    intro acc idx p psize hnd hmem hacc
    obtain ⟨idx0, p0, psize0⟩ := v
    simp only [List.map_cons, List.nodup_cons] at hnd
    rcases List.mem_cons.mp hmem with h1 | h1
    · cases h1
      have hnotin : ∀ v ∈ rest,
          (idx, ((psize : Nat) : Int)) ≠ (v.1, ((v.2.2 : Nat) : Int)) := by
        intro v hv he
        exact hnd.1 (List.mem_map.mpr ⟨v, hv, he.symm⟩)
      cases hcp : vectorParameterPartial env le p sc ltcpo with
      | none =>
        simp only [vectorParameterLoop, hcp]
        rw [vectorParameterLoop_lookup_not_mem env le sc ltcpo rest _ _ hnotin,
          hacc]
      | some cp =>
        simp only [vectorParameterLoop, hcp]
        rw [vectorParameterLoop_lookup_not_mem env le sc ltcpo rest _ _ hnotin,
          mapLookup_mapInsert, if_pos rfl]
    · have hne : (idx, ((psize : Nat) : Int)) ≠ (idx0, ((psize0 : Nat) : Int)) := by
        intro he
        exact hnd.1 (List.mem_map.mpr ⟨(idx, p, psize), h1, he⟩)
      cases hcp : vectorParameterPartial env le p0 sc ltcpo with
      | none =>
        simp only [vectorParameterLoop, hcp]
        exact ih acc idx p psize hnd.2 h1 hacc
      | some cp =>
        simp only [vectorParameterLoop, hcp]
        refine ih _ idx p psize hnd.2 h1 ?_
        rw [mapLookup_mapInsert, if_neg hne, hacc]

theorem singleLink_ok_decompose (env : Env) (le : LinkEnds)
    (ps : EstimatableParameterSet) (flag : Bool)
    (ltc : List (List LightTimeCorrection)) (dvi sid : Nat)
    (m : SingleLinkObservationPartialList) (s : ScalingRecord)
    (hok : createMutualApproximationPartialsSingleLink env le ps flag ltc dvi
        sid = Except.ok (m, s)) :
    ∃ l1 fi,
      initialStateParameterLoop env le (scalingOf flag dvi sid)
          (ltc.map env.createLightTimeCorrectionPartials)
          ps.initialStateParameters 0 [] = Except.ok (l1, fi) ∧
      m = vectorParameterLoop env le (scalingOf flag dvi sid)
            (ltc.map env.createLightTimeCorrectionPartials) ps.vectorParameters
            (doubleParameterLoop env le (scalingOf flag dvi sid)
              (ltc.map env.createLightTimeCorrectionPartials)
              ps.doubleParameters l1) ∧
      s = scalingOf flag dvi sid := by
  rw [createMutualApproximationPartialsSingleLink] at hok
  by_cases hc : 0 < ltc.length ∧ ltc.length ≠ 2
  · rw [if_pos hc] at hok
    exact absurd hok (by simp)
  · rw [if_neg hc] at hok
    have hsc : (if flag then
        (⟨ScalingVariant.mutualApproximationScaling, dvi, sid⟩ : ScalingRecord)
      else
        ⟨ScalingVariant.modifiedMutualApproximationScaling, dvi, sid⟩) =
        scalingOf flag dvi sid := rfl
    rw [hsc] at hok
    dsimp only at hok
    cases hinit : initialStateParameterLoop env le (scalingOf flag dvi sid)
        (ltc.map env.createLightTimeCorrectionPartials)
        ps.initialStateParameters 0 [] with
    | error e => rw [hinit] at hok; exact absurd hok (by simp)
    | ok r =>
      obtain ⟨l1, fi⟩ := r
      rw [hinit] at hok
      simp only [Except.ok.injEq, Prod.mk.injEq] at hok
      exact ⟨l1, fi, rfl, hok.1.symm, hok.2.symm⟩

/-- A trivial oracle environment: no position partials anywhere, no
light-time-correction partial functions, no link-property partials, no
link-property parameter categories. -/
def envTrivial : Env where
  positionPartialsWrtBody := fun _ _ => []
  positionPartialsWrtParameter := fun _ _ => []
  numLightTimeCorrectionPartialFunctions := fun _ _ => 0
  createLightTimeCorrectionPartials := fun _ => []
  linkPropertyPartialExists := fun _ _ => false
  isParameterObservationLinkProperty := fun _ => false

/-- A complete set of link ends (transmitter, transmitter2, receiver). -/
def linkABC : LinkEnds :=
  [(LinkEndType.transmitter, ("A", "")),
    (LinkEndType.transmitter2, ("B", "")),
    (LinkEndType.receiver, ("E", ""))]

/-- A second complete set of link ends. -/
def linkDEF : LinkEnds :=
  [(LinkEndType.transmitter, ("C", "")),
    (LinkEndType.transmitter2, ("D", "")),
    (LinkEndType.receiver, ("F", ""))]

/-- A set of link ends missing the transmitter2 role. -/
def linkNoTransmitter2 : LinkEnds :=
  [(LinkEndType.transmitter, ("A", "")), (LinkEndType.receiver, ("E", ""))]

/-- The empty estimated-parameter set. -/
def emptyParameterSet : EstimatableParameterSet := ⟨[], [], []⟩

/-- An initial-state parameter of category initial_body_state for body A. -/
def paramStateA : InitialStateParameter :=
  ⟨(EstimatebleParametersEnum.initial_body_state, ("A", ""))⟩

/-- An initial-state parameter of category arc_wise_initial_body_state for
body B. -/
def paramStateB : InitialStateParameter :=
  ⟨(EstimatebleParametersEnum.arc_wise_initial_body_state, ("B", ""))⟩

/-- An initial-state parameter of an unidentifiable category. -/
def paramStateBad : InitialStateParameter :=
  ⟨(EstimatebleParametersEnum.otherParameterType 3, ("Z", ""))⟩

/-- C2: in single-link assembly, the running global index is advanced by
exactly 6 for every initial-dynamical-state parameter regardless of whether a
partial block was inserted for it (the statement holds for every oracle
environment, hence independently of how many parameters produce a block), so
the total index advance over the dynamical loop equals 6 times the number of
dynamical parameters. -/
theorem claim_C2_index_reservation (env : Env) (le : LinkEnds)
    (sc : ScalingRecord) (ltcpo : List (List LightTimeCorrectionPartial))
    (ps : List InitialStateParameter) (start : Int)
    (acc m : SingleLinkObservationPartialList) (fi : Int)
    (h : initialStateParameterLoop env le sc ltcpo ps start acc =
      Except.ok (m, fi)) :
    fi - start = 6 * (ps.length : Int) := by
  have h2 := initialStateParameterLoop_finalIndex env le sc ltcpo ps start acc
    m fi h
  omega

theorem claim_C2_index_reservation_witness :
    initialStateParameterLoop envTrivial linkABC
        ⟨ScalingVariant.mutualApproximationScaling, 0, 0⟩ []
        [paramStateA, paramStateB] 0 [] = Except.ok ([], 12) ∧
    (12 : Int) - 0 = 6 * (([paramStateA, paramStateB] :
      List InitialStateParameter).length : Int) :=
  ⟨by rfl, claim_C2_index_reservation envTrivial linkABC
    ⟨ScalingVariant.mutualApproximationScaling, 0, 0⟩ []
    [paramStateA, paramStateB] 0 [] [] 12 (by rfl)⟩

/-- C5 counterexample: an empty light-time-correction list has size 0, which
is different from 2, yet single-link assembly succeeds (the source throws
only when the size is nonzero and different from 2), so the claim as stated
fails at this input. -/
theorem claim_C5_counterexample :
    ([] : List (List LightTimeCorrection)).length ≠ 2 ∧
    isOkE (createMutualApproximationPartialsSingleLink envTrivial linkABC
      emptyParameterSet true [] 0 0) = true :=
  ⟨by decide, by rfl⟩

/-- C5 (amended): for every correction-group list whose size is nonzero and
not 2, single-link assembly fails deterministically with the fatal leg-count
configuration error, raised immediately, before any block map is returned. -/
theorem claim_C5_nonzero_leg_count_fails (env : Env) (le : LinkEnds)
    (ps : EstimatableParameterSet) (flag : Bool)
    (ltc : List (List LightTimeCorrection)) (dvi sid : Nat)
    (h0 : ltc.length ≠ 0) (h2 : ltc.length ≠ 2) :
    createMutualApproximationPartialsSingleLink env le ps flag ltc dvi sid =
      Except.error (mutualApproximationLegCountError ltc.length) := by
  rw [createMutualApproximationPartialsSingleLink,
    if_pos ⟨Nat.pos_of_ne_zero h0, h2⟩]

theorem claim_C5_nonzero_leg_count_fails_witness :
    ([[5]] : List (List LightTimeCorrection)).length ≠ 0 ∧
    ([[5]] : List (List LightTimeCorrection)).length ≠ 2 ∧
    createMutualApproximationPartialsSingleLink envTrivial linkABC
        emptyParameterSet true [[5]] 0 0 =
      Except.error (mutualApproximationLegCountError 1) :=
  ⟨by decide, by decide,
    claim_C5_nonzero_leg_count_fails envTrivial linkABC emptyParameterSet true
      [[5]] 0 0 (by decide) (by decide)⟩

/-- C10: single-link assembly with an empty estimated-parameter set (and a
well-formed light-time-correction list, of size 0 or 2) succeeds without
error and returns an empty block mapping paired with the freshly constructed
scaling object. -/
theorem claim_C10_empty_parameter_set (env : Env) (le : LinkEnds) (flag : Bool)
    (ltc : List (List LightTimeCorrection)) (dvi sid : Nat)
    (h : ltc.length = 0 ∨ ltc.length = 2) :
    createMutualApproximationPartialsSingleLink env le ⟨[], [], []⟩ flag ltc
        dvi sid = Except.ok ([], scalingOf flag dvi sid) := by
  rw [createMutualApproximationPartialsSingleLink, if_neg (by omega)]
  rfl

theorem claim_C10_empty_parameter_set_witness :
    (([] : List (List LightTimeCorrection)).length = 0 ∨
      ([] : List (List LightTimeCorrection)).length = 2) ∧
    createMutualApproximationPartialsSingleLink envTrivial linkABC ⟨[], [], []⟩
        true [] 3 7 =
      Except.ok ([], ⟨ScalingVariant.mutualApproximationScaling, 3, 7⟩) :=
  ⟨Or.inl rfl,
    claim_C10_empty_parameter_set envTrivial linkABC true [] 3 7 (Or.inl rfl)⟩

/-- C8: given a well-formed correction list, single-link assembly succeeds
when every initial-dynamical-state parameter has one of the two accepted
categories (initial_body_state, arc_wise_initial_body_state, for which the
body identifier is resolved and assembly proceeds), and raises the fatal
configuration error "could not identify parameter" when some dynamical
parameter has any other category. -/
theorem claim_C8_category_validation (env : Env) (le : LinkEnds)
    (ps : EstimatableParameterSet) (flag : Bool)
    (ltc : List (List LightTimeCorrection)) (dvi sid : Nat)
    (h : ltc.length = 0 ∨ ltc.length = 2) :
    ((∀ p ∈ ps.initialStateParameters,
        isIdentifiableCategory p.parameterName.fst = true) →
      isOkE (createMutualApproximationPartialsSingleLink env le ps flag ltc
        dvi sid) = true) ∧
    ((∃ p ∈ ps.initialStateParameters,
        isIdentifiableCategory p.parameterName.fst = false) →
      createMutualApproximationPartialsSingleLink env le ps flag ltc dvi sid =
        Except.error couldNotIdentifyParameterError) := by
  have hc : ¬(0 < ltc.length ∧ ltc.length ≠ 2) := by omega
  have hsc : (if flag then
      (⟨ScalingVariant.mutualApproximationScaling, dvi, sid⟩ : ScalingRecord)
    else
      ⟨ScalingVariant.modifiedMutualApproximationScaling, dvi, sid⟩) =
      scalingOf flag dvi sid := rfl
  constructor
  · intro hall
    obtain ⟨m, fi, hm⟩ := initialStateParameterLoop_isOk env le
      (scalingOf flag dvi sid) (ltc.map env.createLightTimeCorrectionPartials)
      ps.initialStateParameters 0 [] hall
    rw [createMutualApproximationPartialsSingleLink, if_neg hc, hsc]
    dsimp only
    rw [hm]
    rfl
  · rintro ⟨p, hp, hpf⟩
    have herr := initialStateParameterLoop_error env le
      (scalingOf flag dvi sid) (ltc.map env.createLightTimeCorrectionPartials)
      ps.initialStateParameters 0 [] ⟨p, hp, hpf⟩
    rw [createMutualApproximationPartialsSingleLink, if_neg hc, hsc]
    dsimp only
    rw [herr]

theorem claim_C8_category_validation_witness :
    isOkE (createMutualApproximationPartialsSingleLink envTrivial linkABC
      ⟨[paramStateA], [], []⟩ true [] 0 0) = true ∧
    createMutualApproximationPartialsSingleLink envTrivial linkABC
        ⟨[paramStateA, paramStateBad], [], []⟩ true [] 0 0 =
      Except.error couldNotIdentifyParameterError := by
  constructor
  · exact (claim_C8_category_validation envTrivial linkABC
      ⟨[paramStateA], [], []⟩ true [] 0 0 (Or.inl rfl)).1 (by decide)
  · exact (claim_C8_category_validation envTrivial linkABC
      ⟨[paramStateA, paramStateBad], [], []⟩ true [] 0 0 (Or.inl rfl)).2
      ⟨paramStateBad, by decide, by decide⟩

/-- A set of link ends contains the three roles the batch function requires. -/
def hasRequiredLinkEnds (le : LinkEnds) : Prop :=
  linkEndCount le LinkEndType.receiver ≠ 0 ∧
    linkEndCount le LinkEndType.transmitter ≠ 0 ∧
    linkEndCount le LinkEndType.transmitter2 ≠ 0

theorem singleLink_isOk (env : Env) (le : LinkEnds)
    (ps : EstimatableParameterSet) (flag : Bool)
    (ltc : List (List LightTimeCorrection)) (dvi sid : Nat)
    (hltc : ¬(0 < ltc.length ∧ ltc.length ≠ 2))
    (hid : ∀ p ∈ ps.initialStateParameters,
      isIdentifiableCategory p.parameterName.fst = true) :
    ∃ r, createMutualApproximationPartialsSingleLink env le ps flag ltc dvi
      sid = Except.ok r := by
  have hsc : (if flag then
      (⟨ScalingVariant.mutualApproximationScaling, dvi, sid⟩ : ScalingRecord)
    else
      ⟨ScalingVariant.modifiedMutualApproximationScaling, dvi, sid⟩) =
      scalingOf flag dvi sid := rfl
  obtain ⟨m, fi, hm⟩ := initialStateParameterLoop_isOk env le
    (scalingOf flag dvi sid) (ltc.map env.createLightTimeCorrectionPartials)
    ps.initialStateParameters 0 [] hid
  refine ⟨(vectorParameterLoop env le (scalingOf flag dvi sid)
      (ltc.map env.createLightTimeCorrectionPartials) ps.vectorParameters
      (doubleParameterLoop env le (scalingOf flag dvi sid)
        (ltc.map env.createLightTimeCorrectionPartials) ps.doubleParameters m),
    scalingOf flag dvi sid), ?_⟩
  rw [createMutualApproximationPartialsSingleLink, if_neg hltc, hsc]
  dsimp only
  rw [hm]

theorem singleLink_legCountError (env : Env) (le : LinkEnds)
    (ps : EstimatableParameterSet) (flag : Bool)
    (ltc : List (List LightTimeCorrection)) (dvi sid : Nat)
    (h0 : ltc.length ≠ 0) (h2 : ltc.length ≠ 2) :
    createMutualApproximationPartialsSingleLink env le ps flag ltc dvi sid =
      Except.error (mutualApproximationLegCountError ltc.length) := by
  rw [createMutualApproximationPartialsSingleLink,
    if_pos ⟨Nat.pos_of_ne_zero h0, h2⟩]

/-- C4 counterexample: the single-link assembly function performs no role
validation: called on a link missing the transmitter2 role (with an empty
parameter set, so that nothing else can interfere) it succeeds and returns a
block map, rather than failing with a configuration error, so the claim that
every assembly call (single-link included) on a role-deficient link fails is
false at this input. -/
theorem claim_C4_counterexample :
    linkEndCount linkNoTransmitter2 LinkEndType.transmitter2 = 0 ∧
    isOkE (createMutualApproximationPartialsSingleLink envTrivial
      linkNoTransmitter2 emptyParameterSet true [] 0 0) = true :=
  ⟨by decide, by rfl⟩

/-- C4 (amended): the batch assembly function checks the three required roles
per link: when the first link of the batch misses one of them, the batch
fails with the role configuration error before any partial block is
constructed and before any diagnostic is emitted, and no mapping is
returned; the single-link assembly function performs no role validation and,
with an empty parameter set and empty corrections, succeeds on the same
role-deficient link. -/
theorem claim_C4_role_validation (env : Env) (ps : EstimatableParameterSet)
    (flag : Bool) (ltcMap : List (LinkEnds × List (List LightTimeCorrection)))
    (dvi : Nat) (le : LinkEnds) (rest : List LinkEnds)
    (hmiss : linkEndCount le LinkEndType.receiver = 0 ∨
      linkEndCount le LinkEndType.transmitter = 0 ∨
      linkEndCount le LinkEndType.transmitter2 = 0) :
    createMutualApproximationPartialsBatch env (le :: rest) ps flag ltcMap
        dvi = ([], Except.error missingLinkEndError) ∧
    isOkE (createMutualApproximationPartialsSingleLink env le ⟨[], [], []⟩
      flag [] dvi 0) = true := by
  constructor
  · rw [createMutualApproximationPartialsBatch]
    rw [createMutualApproximationPartialsBatchLoop, if_pos hmiss]
  · obtain ⟨r, hr⟩ := singleLink_isOk env le ⟨[], [], []⟩ flag [] dvi 0
      (by simp) (by simp)
    rw [hr]
    rfl

theorem claim_C4_role_validation_witness :
    (linkEndCount linkNoTransmitter2 LinkEndType.receiver = 0 ∨
      linkEndCount linkNoTransmitter2 LinkEndType.transmitter = 0 ∨
      linkEndCount linkNoTransmitter2 LinkEndType.transmitter2 = 0) ∧
    createMutualApproximationPartialsBatch envTrivial
        [linkNoTransmitter2, linkABC] emptyParameterSet true [] 0 =
      ([], Except.error missingLinkEndError) ∧
    isOkE (createMutualApproximationPartialsSingleLink envTrivial
      linkNoTransmitter2 ⟨[], [], []⟩ true [] 0 0) = true := by
  refine ⟨by decide, ?_⟩
  exact claim_C4_role_validation envTrivial emptyParameterSet true [] 0
    linkNoTransmitter2 [linkABC] (by decide)

/-- C1 counterexample: a batch of two well-formed links where the second
link's entry in the shared correction map holds one correction group instead
of two. The diagnostic is emitted, but the malformed corrections are passed
unchanged to the single-link call, which throws the fatal leg-count error:
the batch returns an error and the returned value carries no mapping at all,
in particular no valid block mapping for the other (well-formed) link, so
the claim fails at this input. -/
theorem claim_C1_counterexample :
    createMutualApproximationPartialsBatch envTrivial [linkABC, linkDEF]
        emptyParameterSet true [(linkDEF, [[5]])] 0 =
      ([mutualApproximationLegCountError 1],
        Except.error (mutualApproximationLegCountError 1)) := by rfl

/-- C1 (amended): in batch assembly, for a link whose entry in the shared
correction map has a nonzero correction-group count different from 2, the
diagnostic is reported but the malformed corrections are passed unchanged to
that link's single-link assembly, which raises the fatal leg-count error; the
batch aborts with that error, so the returned value carries no block mapping
for any link (stated for a two-link batch whose first link is well-formed
and has no correction entry). -/
theorem claim_C1_batch_malformed_corrections (env : Env)
    (ps : EstimatableParameterSet) (flag : Bool) (dvi : Nat)
    (l1 l2 : LinkEnds) (cs : List (List LightTimeCorrection))
    (ltcMap : List (LinkEnds × List (List LightTimeCorrection)))
    (h1r : hasRequiredLinkEnds l1) (h2r : hasRequiredLinkEnds l2)
    (hm1 : mapLookup l1 ltcMap = none)
    (hm2 : mapLookup l2 ltcMap = some cs)
    (hcs0 : cs.length ≠ 0) (hcs2 : cs.length ≠ 2)
    (hid : ∀ p ∈ ps.initialStateParameters,
      isIdentifiableCategory p.parameterName.fst = true) :
    createMutualApproximationPartialsBatch env [l1, l2] ps flag ltcMap dvi =
      ([mutualApproximationLegCountError cs.length],
        Except.error (mutualApproximationLegCountError cs.length)) := by
  have h1n : ¬(linkEndCount l1 LinkEndType.receiver = 0 ∨
      linkEndCount l1 LinkEndType.transmitter = 0 ∨
      linkEndCount l1 LinkEndType.transmitter2 = 0) := by
    push_neg
    exact h1r
  have h2n : ¬(linkEndCount l2 LinkEndType.receiver = 0 ∨
      linkEndCount l2 LinkEndType.transmitter = 0 ∨
      linkEndCount l2 LinkEndType.transmitter2 = 0) := by
    push_neg
    exact h2r
  obtain ⟨r1, hr1⟩ := singleLink_isOk env l1 ps flag [] dvi 0 (by simp) hid
  have herr2 := singleLink_legCountError env l2 ps flag cs dvi (0 + 1) hcs0
    hcs2
  simp only [createMutualApproximationPartialsBatch,
    createMutualApproximationPartialsBatchLoop, if_neg h1n, if_neg h2n, hm1,
    hm2, if_pos hcs2, hr1, herr2, List.nil_append]

theorem claim_C1_batch_malformed_corrections_witness :
    hasRequiredLinkEnds linkABC ∧ hasRequiredLinkEnds linkDEF ∧
    mapLookup linkABC [(linkDEF, ([[1], [2], [3]] :
      List (List LightTimeCorrection)))] = none ∧
    createMutualApproximationPartialsBatch envTrivial [linkABC, linkDEF]
        ⟨[paramStateA], [], []⟩ true [(linkDEF, [[1], [2], [3]])] 0 =
      ([mutualApproximationLegCountError 3],
        Except.error (mutualApproximationLegCountError 3)) := by
  refine ⟨⟨by decide, by decide, by decide⟩, ⟨by decide, by decide, by decide⟩,
    by decide, ?_⟩
  exact claim_C1_batch_malformed_corrections envTrivial ⟨[paramStateA], [], []⟩
    true 0 linkABC linkDEF [[1], [2], [3]] [(linkDEF, [[1], [2], [3]])]
    ⟨by decide, by decide, by decide⟩ ⟨by decide, by decide, by decide⟩
    (by decide) (by decide) (by decide) (by decide) (by decide)

/-- The link-property parameter category used in the concrete examples. -/
def linkPropCategory : EstimatebleParametersEnum :=
  EstimatebleParametersEnum.otherParameterType 9

/-- A parameter of the link-property category. -/
def paramScalarLinkProp : ParameterName := (linkPropCategory, ("", "biasLink"))

/-- A sample scaling record. -/
def scSample : ScalingRecord :=
  ⟨ScalingVariant.mutualApproximationScaling, 0, 0⟩

/-- An oracle environment in which paramScalarLinkProp's category is an
observation link property, the link-property constructor always yields a
partial, and the position-partial factory yields one receiver partial for
parameters of that category. -/
def envC7 : Env where
  positionPartialsWrtBody := fun _ _ => []
  positionPartialsWrtParameter := fun _ p =>
    if p.fst = linkPropCategory then [(LinkEndType.receiver, 5)] else []
  numLightTimeCorrectionPartialFunctions := fun _ _ => 0
  createLightTimeCorrectionPartials := fun _ => []
  linkPropertyPartialExists := fun _ _ => true
  isParameterObservationLinkProperty := fun c => decide (c = linkPropCategory)

/-- C7 counterexample: the double-parameter loop has no link-property
dispatch. A scalar (double) parameter whose category is an observation link
property is nevertheless sent through the position-coupled factory: the
resulting block is a mutual-approximation partial built from position
partials, not a link-property partial, contradicting the claimed per-kind
dispatch for scalar parameters. -/
theorem claim_C7_counterexample :
    envC7.isParameterObservationLinkProperty paramScalarLinkProp.fst = true ∧
    createMutualApproximationPartialsSingleLink envC7 linkABC
        ⟨[], [(20, paramScalarLinkProp)], []⟩ true [] 0 0 =
      Except.ok ([(((20 : Int), (1 : Int)),
        ObservationPartial.mutualApprox 1
          ⟨ScalingVariant.mutualApproximationScaling, 0, 0⟩
          [(LinkEndType.receiver, 5)] paramScalarLinkProp [])],
        ⟨ScalingVariant.mutualApproximationScaling, 0, 0⟩) :=
  ⟨by rfl, by rfl⟩

/-- C7 (amended): in single-link assembly every scalar (double) parameter
takes the position-coupled path regardless of its parameter kind (the
link-property dispatch exists only in the vector-parameter loop): under
distinct double-parameter indices, the entry of the double loop's result at
(index, 1) is exactly the position-coupled factory's output — a block of
size 1 at the parameter's global index when the factory result is non-empty,
and no entry otherwise. -/
theorem claim_C7_double_dispatch (env : Env) (le : LinkEnds)
    (sc : ScalingRecord) (ltcpo : List (List LightTimeCorrectionPartial))
    (ds : List (Int × ParameterName)) (acc : SingleLinkObservationPartialList)
    (idx : Int) (p : ParameterName)
    (hnd : (ds.map Prod.fst).Nodup) (hmem : (idx, p) ∈ ds)
    (hacc : mapLookup (idx, (1 : Int)) acc = none) :
    mapLookup (idx, (1 : Int)) (doubleParameterLoop env le sc ltcpo ds acc) =
      createMutualApproximationPartialWrtParameter env le p sc ltcpo :=
  doubleParameterLoop_lookup_mem env le sc ltcpo ds acc idx p hnd hmem hacc

theorem claim_C7_double_dispatch_witness :
    ((([(20, paramScalarLinkProp)] : List (Int × ParameterName)).map
      Prod.fst).Nodup) ∧
    mapLookup ((20 : Int), (1 : Int))
        (doubleParameterLoop envC7 linkABC scSample []
          [(20, paramScalarLinkProp)] []) =
      createMutualApproximationPartialWrtParameter envC7 linkABC
        paramScalarLinkProp scSample [] := by
  refine ⟨by decide, ?_⟩
  exact claim_C7_double_dispatch envC7 linkABC scSample []
    [(20, paramScalarLinkProp)] [] 20 paramScalarLinkProp (by decide)
    (by decide) (by rfl)

/-- C6 counterexample: a link-property vector parameter produces a block that
is inserted in the returned mapping but is constructed without any reference
to the scaling object (the source call at lines 241-242 passes it no scaling
object), so the claim that every partial block created in the call
references the identical scaling instance fails at this input. -/
theorem claim_C6_counterexample :
    createMutualApproximationPartialsSingleLink envC7 linkABC
        ⟨[], [], [(40, paramScalarLinkProp, 3)]⟩ true [] 0 5 =
      Except.ok ([(((40 : Int), (3 : Int)),
        ObservationPartial.wrtLinkProperty 1 linkABC
          ObservableType.mutual_approximation paramScalarLinkProp)],
        ⟨ScalingVariant.mutualApproximationScaling, 0, 5⟩) ∧
    scalerOf (ObservationPartial.wrtLinkProperty 1 linkABC
      ObservableType.mutual_approximation paramScalarLinkProp) = none :=
  ⟨by rfl, by rfl⟩

theorem createWrtParameter_scaler (env : Env) (le : LinkEnds)
    (p : ParameterName) (sc : ScalingRecord)
    (ltcpo : List (List LightTimeCorrectionPartial)) (cp : ObservationPartial)
    (h : createMutualApproximationPartialWrtParameter env le p sc ltcpo =
      some cp) :
    scalerOf cp = some sc := by
  rw [createMutualApproximationPartialWrtParameter] at h
  by_cases hc : 0 < (env.positionPartialsWrtParameter le p).length ∨
      0 < env.numLightTimeCorrectionPartialFunctions p ltcpo
  · rw [if_pos hc, Option.some.injEq] at h
    rw [← h]
    rfl
  · rw [if_neg hc] at h
    exact absurd h (by simp)

theorem createWrtBodyPosition_scaler (env : Env) (le : LinkEnds) (b : String)
    (sc : ScalingRecord) (ltcpo : List (List LightTimeCorrectionPartial))
    (cp : ObservationPartial)
    (h : createMutualApproximationPartialWrtBodyPosition env le b sc ltcpo =
      some cp) :
    scalerOf cp = some sc := by
  rw [createMutualApproximationPartialWrtBodyPosition] at h
  by_cases hc : 0 < (env.positionPartialsWrtBody le b).length ∨
      0 < env.numLightTimeCorrectionPartialFunctions (bodyStateParameterId b)
        ltcpo
  · rw [if_pos hc, Option.some.injEq] at h
    rw [← h]
    rfl
  · rw [if_neg hc] at h
    exact absurd h (by simp)

theorem vectorParameterPartial_scaler (env : Env) (le : LinkEnds)
    (p : ParameterName) (sc : ScalingRecord)
    (ltcpo : List (List LightTimeCorrectionPartial)) (cp : ObservationPartial)
    (sc2 : ScalingRecord)
    (h : vectorParameterPartial env le p sc ltcpo = some cp)
    (h2 : scalerOf cp = some sc2) : sc2 = sc := by
  rw [vectorParameterPartial] at h
  by_cases hlp : env.isParameterObservationLinkProperty p.fst
  · rw [if_neg (by simp [hlp])] at h
    rw [createObservationPartialWrtLinkProperty] at h
    by_cases hex : env.linkPropertyPartialExists le p = true
    · rw [if_pos hex, Option.some.injEq] at h
      rw [← h] at h2
      exact absurd h2 (by simp [scalerOf])
    · rw [if_neg hex] at h
      exact absurd h (by simp)
  · rw [if_pos (by simp [hlp])] at h
    have h3 := createWrtParameter_scaler env le p sc ltcpo cp h
    rw [h3, Option.some.injEq] at h2
    exact h2.symm

/-- The property that any scaling object referenced from the mapping is the
given one. -/
def referencesOnly (s : ScalingRecord)
    (m : SingleLinkObservationPartialList) : Prop :=
  ∀ e ∈ m, ∀ sc2, scalerOf e.2 = some sc2 → sc2 = s

theorem referencesOnly_mapInsert (s : ScalingRecord) (k : Int × Int)
    (v : ObservationPartial) (m : SingleLinkObservationPartialList)
    (hv : ∀ sc2, scalerOf v = some sc2 → sc2 = s) (hm : referencesOnly s m) :
    referencesOnly s (mapInsert k v m) := by
  intro e he sc2 h2
  rcases mem_mapInsert k v m e he with h1 | h1
  · rw [h1] at h2
    exact hv sc2 h2
  · exact hm e h1 sc2 h2

theorem initialStateParameterLoop_scaler (env : Env) (le : LinkEnds)
    (sc : ScalingRecord) (ltcpo : List (List LightTimeCorrectionPartial)) :
    ∀ (ps : List InitialStateParameter) (start : Int)
      (acc m : SingleLinkObservationPartialList) (fi : Int),
      initialStateParameterLoop env le sc ltcpo ps start acc =
          Except.ok (m, fi) →
      referencesOnly sc acc → referencesOnly sc m := by
  intro ps
  induction ps with
  | nil =>
    intro start acc m fi h hacc
    simp only [initialStateParameterLoop, Except.ok.injEq, Prod.mk.injEq] at h
    rw [← h.1]
    exact hacc
  | cons p rest ih =>
    intro start acc m fi h hacc
    cases hb : getAcceleratedBody p.parameterName with
    | none => simp [initialStateParameterLoop, hb] at h
    | some b =>
      simp only [initialStateParameterLoop, hb] at h
      cases hcp : createMutualApproximationPartialWrtBodyPosition env le b sc
          ltcpo with
      | none =>
        rw [hcp] at h
        exact ih (start + 6) acc m fi h hacc
      | some cp =>
        rw [hcp] at h
        refine ih (start + 6) _ m fi h ?_
        refine referencesOnly_mapInsert sc _ cp acc ?_ hacc
        intro sc2 h2
        have h3 := createWrtBodyPosition_scaler env le b sc ltcpo cp hcp
        rw [h3, Option.some.injEq] at h2
        exact h2.symm

theorem doubleParameterLoop_scaler (env : Env) (le : LinkEnds)
    (sc : ScalingRecord) (ltcpo : List (List LightTimeCorrectionPartial)) :
    ∀ (ds : List (Int × ParameterName))
      (acc : SingleLinkObservationPartialList),
      referencesOnly sc acc →
      referencesOnly sc (doubleParameterLoop env le sc ltcpo ds acc) := by
  intro ds
  induction ds with
  | nil => intro acc hacc; exact hacc
  | cons d rest ih =>
    intro acc hacc
    obtain ⟨idx, pname⟩ := d
    cases hcp : createMutualApproximationPartialWrtParameter env le pname sc
        ltcpo with
    | none => simp only [doubleParameterLoop, hcp]; exact ih acc hacc
    | some cp =>
      simp only [doubleParameterLoop, hcp]
      refine ih _ (referencesOnly_mapInsert sc _ cp acc ?_ hacc)
      intro sc2 h2
      have h3 := createWrtParameter_scaler env le pname sc ltcpo cp hcp
      rw [h3, Option.some.injEq] at h2
      exact h2.symm

theorem vectorParameterLoop_scaler (env : Env) (le : LinkEnds)
    (sc : ScalingRecord) (ltcpo : List (List LightTimeCorrectionPartial)) :
    ∀ (vs : List (Int × ParameterName × Nat))
      (acc : SingleLinkObservationPartialList),
      referencesOnly sc acc →
      referencesOnly sc (vectorParameterLoop env le sc ltcpo vs acc) := by
  intro vs
  induction vs with
  | nil => intro acc hacc; exact hacc
  | cons v rest ih =>
    intro acc hacc
    obtain ⟨idx, pname, psize⟩ := v
    cases hcp : vectorParameterPartial env le pname sc ltcpo with
    | none => simp only [vectorParameterLoop, hcp]; exact ih acc hacc
    | some cp =>
      simp only [vectorParameterLoop, hcp]
      refine ih _ (referencesOnly_mapInsert sc _ cp acc ?_ hacc)
      intro sc2 h2
      exact vectorParameterPartial_scaler env le pname sc ltcpo cp sc2 hcp h2

/-- C6 (amended): each single-link assembly call constructs exactly one
scaling object, whose concrete variant is selected by
isCentralInstantUsedAsObservable (MutualApproximationScaling when true,
ModifiedMutualApproximationScaling when false); that instance is the scaling
object returned alongside the block mapping, and every partial block in the
mapping that references a scaling object at all references this identical
instance; blocks built by the link-property constructor reference none. -/
theorem claim_C6_scaling_sharing (env : Env) (le : LinkEnds)
    (ps : EstimatableParameterSet) (flag : Bool)
    (ltc : List (List LightTimeCorrection)) (dvi sid : Nat)
    (m : SingleLinkObservationPartialList) (s : ScalingRecord)
    (hok : createMutualApproximationPartialsSingleLink env le ps flag ltc dvi
        sid = Except.ok (m, s)) :
    s = scalingOf flag dvi sid ∧
    s.variant = (if flag then ScalingVariant.mutualApproximationScaling
      else ScalingVariant.modifiedMutualApproximationScaling) ∧
    ∀ e ∈ m, ∀ sc2, scalerOf e.2 = some sc2 → sc2 = s := by
  obtain ⟨l1, fi, hinit, hm, hs⟩ := singleLink_ok_decompose env le ps flag ltc
    dvi sid m s hok
  refine ⟨hs, ?_, ?_⟩
  · rw [hs]
    cases flag <;> rfl
  · rw [hm, hs]
    refine vectorParameterLoop_scaler env le _ _ ps.vectorParameters _
      (doubleParameterLoop_scaler env le _ _ ps.doubleParameters l1 ?_)
    refine initialStateParameterLoop_scaler env le _ _
      ps.initialStateParameters 0 [] l1 fi hinit ?_
    intro e he
    exact absurd he (by simp)

theorem claim_C6_scaling_sharing_witness :
    (⟨ScalingVariant.mutualApproximationScaling, 0, 5⟩ : ScalingRecord) =
      scalingOf true 0 5 ∧
    (⟨ScalingVariant.mutualApproximationScaling, 0, 5⟩ :
      ScalingRecord).variant =
      (if true then ScalingVariant.mutualApproximationScaling
        else ScalingVariant.modifiedMutualApproximationScaling) := by
  have h := claim_C6_scaling_sharing envC7 linkABC
    ⟨[], [(20, paramScalarLinkProp)], []⟩ true [] 0 5
    [(((20 : Int), (1 : Int)),
      ObservationPartial.mutualApprox 1
        ⟨ScalingVariant.mutualApproximationScaling, 0, 5⟩
        [(LinkEndType.receiver, 5)] paramScalarLinkProp [])]
    ⟨ScalingVariant.mutualApproximationScaling, 0, 5⟩ (by rfl)
  exact ⟨h.1, h.2.1⟩

theorem nodup_parts {α : Type} {a b c : List α} (h : (a ++ b ++ c).Nodup) :
    b.Nodup ∧ c.Nodup ∧ (∀ x, x ∈ a → x ∉ c) ∧ (∀ x, x ∈ b → x ∉ c) ∧
      (∀ x, x ∈ a → x ∉ b) := by
  rw [List.append_assoc, List.nodup_append] at h
  obtain ⟨ha, hbc, hdis⟩ := h
  rw [List.nodup_append] at hbc
  obtain ⟨hb, hc, hbcdis⟩ := hbc
  refine ⟨hb, hc, ?_, ?_, ?_⟩
  · intro x hx hxc
    exact hdis hx (List.mem_append_right _ hxc)
  · intro x hx hxc
    exact hbcdis hx hxc
  · intro x hx hxb
    exact hdis hx (List.mem_append_left _ hxb)

theorem singleLink_lookup_dynamical (env : Env) (le : LinkEnds)
    (ps : EstimatableParameterSet) (flag : Bool)
    (ltc : List (List LightTimeCorrection)) (dvi sid : Nat)
    (m : SingleLinkObservationPartialList) (s : ScalingRecord)
    (hok : createMutualApproximationPartialsSingleLink env le ps flag ltc dvi
        sid = Except.ok (m, s))
    (hkeys : (assembledKeys ps).Nodup) (i : Nat)
    (hi : i < ps.initialStateParameters.length) (b : String)
    (hb : getAcceleratedBody
      ((ps.initialStateParameters.get ⟨i, hi⟩).parameterName) = some b) :
    mapLookup (6 * (i : Int), (6 : Int)) m =
      createMutualApproximationPartialWrtBodyPosition env le b
        (scalingOf flag dvi sid)
        (ltc.map env.createLightTimeCorrectionPartials) := by
  obtain ⟨l1, fi, hinit, hm, hs⟩ := singleLink_ok_decompose env le ps flag ltc
    dvi sid m s hok
  rw [assembledKeys] at hkeys
  obtain ⟨hndB, hndC, hAC, hBC, hAB⟩ := nodup_parts hkeys
  have hacc0 : mapLookup ((0 : Int) + 6 * (i : Int), (6 : Int))
      ([] : SingleLinkObservationPartialList) = none := rfl
  have h1 := initialStateParameterLoop_lookup_at env le (scalingOf flag dvi sid)
    (ltc.map env.createLightTimeCorrectionPartials)
    ps.initialStateParameters 0 [] l1 fi i hi b hinit hb hacc0
  have hz : (0 : Int) + 6 * (i : Int) = 6 * (i : Int) := by ring
  rw [hz] at h1
  have h4 : (6 * (i : Int), (6 : Int)) ∈
      (List.range ps.initialStateParameters.length).map
        fun (j : Nat) => (6 * (j : Int), (6 : Int)) :=
    List.mem_map.mpr ⟨i, List.mem_range.mpr hi, rfl⟩
  have h2 : mapLookup (6 * (i : Int), (6 : Int))
      (doubleParameterLoop env le (scalingOf flag dvi sid)
        (ltc.map env.createLightTimeCorrectionPartials)
        ps.doubleParameters l1) =
      mapLookup (6 * (i : Int), (6 : Int)) l1 := by
    apply doubleParameterLoop_lookup_not_mem
    intro d hd he
    have h7 : (6 : Int) = 1 := congrArg Prod.snd he
    exact absurd h7 (by decide)
  have h5 : mapLookup (6 * (i : Int), (6 : Int))
      (vectorParameterLoop env le (scalingOf flag dvi sid)
        (ltc.map env.createLightTimeCorrectionPartials) ps.vectorParameters
        (doubleParameterLoop env le (scalingOf flag dvi sid)
          (ltc.map env.createLightTimeCorrectionPartials)
          ps.doubleParameters l1)) =
      mapLookup (6 * (i : Int), (6 : Int))
        (doubleParameterLoop env le (scalingOf flag dvi sid)
          (ltc.map env.createLightTimeCorrectionPartials)
          ps.doubleParameters l1) := by
    apply vectorParameterLoop_lookup_not_mem
    intro v hv he
    exact hAC _ h4 (he ▸ List.mem_map.mpr ⟨v, hv, rfl⟩)
  rw [hm, h5, h2, h1]

theorem singleLink_lookup_double (env : Env) (le : LinkEnds)
    (ps : EstimatableParameterSet) (flag : Bool)
    (ltc : List (List LightTimeCorrection)) (dvi sid : Nat)
    (m : SingleLinkObservationPartialList) (s : ScalingRecord)
    (hok : createMutualApproximationPartialsSingleLink env le ps flag ltc dvi
        sid = Except.ok (m, s))
    (hkeys : (assembledKeys ps).Nodup) (idx : Int) (p : ParameterName)
    (hd : (idx, p) ∈ ps.doubleParameters) :
    mapLookup (idx, (1 : Int)) m =
      createMutualApproximationPartialWrtParameter env le p
        (scalingOf flag dvi sid)
        (ltc.map env.createLightTimeCorrectionPartials) := by
  obtain ⟨l1, fi, hinit, hm, hs⟩ := singleLink_ok_decompose env le ps flag ltc
    dvi sid m s hok
  rw [assembledKeys] at hkeys
  obtain ⟨hndB, hndC, hAC, hBC, hAB⟩ := nodup_parts hkeys
  have hndB2 : (ps.doubleParameters.map Prod.fst).Nodup := by
    have h6 : ps.doubleParameters.map (fun d => (d.1, (1 : Int))) =
        (ps.doubleParameters.map Prod.fst).map fun x => (x, (1 : Int)) := by
      rw [List.map_map]
      rfl
    rw [h6] at hndB
    exact List.Nodup.of_map _ hndB
  have hinB : (idx, (1 : Int)) ∈ ps.doubleParameters.map
      fun d => (d.1, (1 : Int)) := List.mem_map.mpr ⟨(idx, p), hd, rfl⟩
  have haccl1 : mapLookup (idx, (1 : Int)) l1 = none := by
    rw [initialStateParameterLoop_lookup_not_written env le
      (scalingOf flag dvi sid)
      (ltc.map env.createLightTimeCorrectionPartials)
      ps.initialStateParameters 0 [] l1 fi _ hinit ?_]
    · rfl
    · intro hmem
      rw [mem_dynamicalKeysFrom] at hmem
      obtain ⟨j, -, hj⟩ := hmem
      have h7 : (1 : Int) = 6 := congrArg Prod.snd hj
      exact absurd h7 (by decide)
  have h2 := doubleParameterLoop_lookup_mem env le (scalingOf flag dvi sid)
    (ltc.map env.createLightTimeCorrectionPartials) ps.doubleParameters l1 idx
    p hndB2 hd haccl1
  have h5 : mapLookup (idx, (1 : Int))
      (vectorParameterLoop env le (scalingOf flag dvi sid)
        (ltc.map env.createLightTimeCorrectionPartials) ps.vectorParameters
        (doubleParameterLoop env le (scalingOf flag dvi sid)
          (ltc.map env.createLightTimeCorrectionPartials)
          ps.doubleParameters l1)) =
      mapLookup (idx, (1 : Int))
        (doubleParameterLoop env le (scalingOf flag dvi sid)
          (ltc.map env.createLightTimeCorrectionPartials)
          ps.doubleParameters l1) := by
    apply vectorParameterLoop_lookup_not_mem
    intro v hv he
    exact hBC _ hinB (he ▸ List.mem_map.mpr ⟨v, hv, rfl⟩)
  rw [hm, h5, h2]

theorem singleLink_lookup_vector (env : Env) (le : LinkEnds)
    (ps : EstimatableParameterSet) (flag : Bool)
    (ltc : List (List LightTimeCorrection)) (dvi sid : Nat)
    (m : SingleLinkObservationPartialList) (s : ScalingRecord)
    (hok : createMutualApproximationPartialsSingleLink env le ps flag ltc dvi
        sid = Except.ok (m, s))
    (hkeys : (assembledKeys ps).Nodup) (idx : Int) (p : ParameterName)
    (psize : Nat) (hv : (idx, p, psize) ∈ ps.vectorParameters) :
    mapLookup (idx, ((psize : Nat) : Int)) m =
      vectorParameterPartial env le p (scalingOf flag dvi sid)
        (ltc.map env.createLightTimeCorrectionPartials) := by
  obtain ⟨l1, fi, hinit, hm, hs⟩ := singleLink_ok_decompose env le ps flag ltc
    dvi sid m s hok
  rw [assembledKeys] at hkeys
  obtain ⟨hndB, hndC, hAC, hBC, hAB⟩ := nodup_parts hkeys
  have hinC : (idx, ((psize : Nat) : Int)) ∈ ps.vectorParameters.map
      fun w => (w.1, ((w.2.2 : Nat) : Int)) :=
    List.mem_map.mpr ⟨(idx, p, psize), hv, rfl⟩
  have haccl1 : mapLookup (idx, ((psize : Nat) : Int)) l1 = none := by
    rw [initialStateParameterLoop_lookup_not_written env le
      (scalingOf flag dvi sid)
      (ltc.map env.createLightTimeCorrectionPartials)
      ps.initialStateParameters 0 [] l1 fi _ hinit ?_]
    · rfl
    · intro hmem
      rw [mem_dynamicalKeysFrom] at hmem
      obtain ⟨j, hj1, hj⟩ := hmem
      have hz : (0 : Int) + 6 * (j : Int) = 6 * (j : Int) := by ring
      rw [hz] at hj
      exact hAC _ (List.mem_map.mpr ⟨j, List.mem_range.mpr hj1, rfl⟩)
        (hj ▸ hinC)
  have h2 : mapLookup (idx, ((psize : Nat) : Int))
      (doubleParameterLoop env le (scalingOf flag dvi sid)
        (ltc.map env.createLightTimeCorrectionPartials)
        ps.doubleParameters l1) =
      mapLookup (idx, ((psize : Nat) : Int)) l1 := by
    apply doubleParameterLoop_lookup_not_mem
    intro d hd he
    exact hBC _ (List.mem_map.mpr ⟨d, hd, rfl⟩) (he ▸ hinC)
  have h3 := vectorParameterLoop_lookup_mem env le (scalingOf flag dvi sid)
    (ltc.map env.createLightTimeCorrectionPartials) ps.vectorParameters
    (doubleParameterLoop env le (scalingOf flag dvi sid)
      (ltc.map env.createLightTimeCorrectionPartials) ps.doubleParameters l1)
    idx p psize hndC hv (by rw [h2, haccl1])
  rw [hm, h3]

/-- An oracle environment with no position partials and no corrections
anywhere, but in which the link-property constructor always yields a partial
and paramScalarLinkProp's category is an observation link property. -/
def envC3x : Env where
  positionPartialsWrtBody := fun _ _ => []
  positionPartialsWrtParameter := fun _ _ => []
  numLightTimeCorrectionPartialFunctions := fun _ _ => 0
  createLightTimeCorrectionPartials := fun _ => []
  linkPropertyPartialExists := fun _ _ => true
  isParameterObservationLinkProperty := fun c => decide (c = linkPropCategory)

/-- C3 counterexample: a link-property vector parameter for which the set of
role-to-position partials is empty and no light-time-correction partial
function contributes, yet the returned block mapping contains an entry for
its index range, produced by the link-property constructor; the claimed
if-and-only-if is false at this input. -/
theorem claim_C3_counterexample :
    (envC3x.positionPartialsWrtParameter linkABC paramScalarLinkProp).length =
      0 ∧
    envC3x.numLightTimeCorrectionPartialFunctions paramScalarLinkProp
      (([] : List (List LightTimeCorrection)).map
        envC3x.createLightTimeCorrectionPartials) = 0 ∧
    createMutualApproximationPartialsSingleLink envC3x linkABC
        ⟨[], [], [(30, paramScalarLinkProp, 2)]⟩ true [] 0 0 =
      Except.ok ([(((30 : Int), (2 : Int)),
        ObservationPartial.wrtLinkProperty 1 linkABC
          ObservableType.mutual_approximation paramScalarLinkProp)],
        ⟨ScalingVariant.mutualApproximationScaling, 0, 0⟩) :=
  ⟨by rfl, by rfl, by rfl⟩

/-- C3 (amended): for every parameter routed through the position-coupled
path — every dynamical parameter, every scalar parameter, and every vector
parameter whose category is not an observation link property — the returned
block mapping contains an entry for that parameter's index range if and only
if the set of role-to-position partials produced for it is non-empty or at
least one light-time-correction partial function contributes; when the
position-partial set is empty and no correction contributes, the entry is
absent, never inserted as a zero block. For a vector parameter whose
category is an observation link property, the entry is present if and only
if the link-property constructor yields a partial. (Index ranges are assumed
pairwise distinct.) -/
theorem claim_C3_sparsity (env : Env) (le : LinkEnds)
    (ps : EstimatableParameterSet) (flag : Bool)
    (ltc : List (List LightTimeCorrection)) (dvi sid : Nat)
    (m : SingleLinkObservationPartialList) (s : ScalingRecord)
    (hok : createMutualApproximationPartialsSingleLink env le ps flag ltc dvi
        sid = Except.ok (m, s))
    (hkeys : (assembledKeys ps).Nodup) :
    (∀ (i : Nat) (hi : i < ps.initialStateParameters.length) (b : String),
      getAcceleratedBody
          ((ps.initialStateParameters.get ⟨i, hi⟩).parameterName) = some b →
      ((mapLookup (6 * (i : Int), (6 : Int)) m).isSome = true ↔
        bodyDependencyExists env le b
          (ltc.map env.createLightTimeCorrectionPartials))) ∧
    (∀ d ∈ ps.doubleParameters,
      ((mapLookup (d.1, (1 : Int)) m).isSome = true ↔
        parameterDependencyExists env le d.2
          (ltc.map env.createLightTimeCorrectionPartials))) ∧
    (∀ v ∈ ps.vectorParameters,
      env.isParameterObservationLinkProperty v.2.1.fst = false →
      ((mapLookup (v.1, ((v.2.2 : Nat) : Int)) m).isSome = true ↔
        parameterDependencyExists env le v.2.1
          (ltc.map env.createLightTimeCorrectionPartials))) ∧
    (∀ v ∈ ps.vectorParameters,
      env.isParameterObservationLinkProperty v.2.1.fst = true →
      ((mapLookup (v.1, ((v.2.2 : Nat) : Int)) m).isSome = true ↔
        env.linkPropertyPartialExists le v.2.1 = true)) := by
  refine ⟨?_, ?_, ?_, ?_⟩
  · intro i hi b hb
    rw [singleLink_lookup_dynamical env le ps flag ltc dvi sid m s hok hkeys i
      hi b hb]
    exact createWrtBodyPosition_isSome env le b _ _
  · intro d hd
    rw [singleLink_lookup_double env le ps flag ltc dvi sid m s hok hkeys d.1
      d.2 hd]
    exact createWrtParameter_isSome env le d.2 _ _
  · intro v hv hlp
    rw [singleLink_lookup_vector env le ps flag ltc dvi sid m s hok hkeys v.1
      v.2.1 v.2.2 hv]
    rw [vectorParameterPartial, if_pos (by simp [hlp])]
    exact createWrtParameter_isSome env le v.2.1 _ _
  · intro v hv hlp
    rw [singleLink_lookup_vector env le ps flag ltc dvi sid m s hok hkeys v.1
      v.2.1 v.2.2 hv]
    rw [vectorParameterPartial, if_neg (by simp [hlp])]
    exact createWrtLinkProperty_isSome env 1 le
      ObservableType.mutual_approximation v.2.1

/-- A position-coupled scalar parameter (e.g. a gravitational parameter). -/
def paramGamma : ParameterName :=
  (EstimatebleParametersEnum.otherParameterType 1, ("global", ""))

/-- A vector parameter with no geometric coupling. -/
def paramVecPlain : ParameterName :=
  (EstimatebleParametersEnum.otherParameterType 2, ("vec", ""))

/-- An oracle environment for the sparsity witness: body A and parameters of
paramGamma's category are position-coupled, everything else is not. -/
def envC3w : Env where
  positionPartialsWrtBody := fun _ b =>
    if b = "A" then [(LinkEndType.transmitter, 1)] else []
  positionPartialsWrtParameter := fun _ p =>
    if p.fst = EstimatebleParametersEnum.otherParameterType 1 then
      [(LinkEndType.receiver, 2)] else []
  numLightTimeCorrectionPartialFunctions := fun _ _ => 0
  createLightTimeCorrectionPartials := fun cs => cs
  linkPropertyPartialExists := fun _ _ => false
  isParameterObservationLinkProperty := fun c => decide (c = linkPropCategory)

/-- The parameter set of the sparsity witness. -/
def psC3w : EstimatableParameterSet :=
  ⟨[paramStateA, paramStateB], [(20, paramGamma)], [(30, paramVecPlain, 3)]⟩

/-- The scaling record produced by the sparsity witness call. -/
def scC3w : ScalingRecord := ⟨ScalingVariant.mutualApproximationScaling, 0, 0⟩

/-- The block mapping returned by the sparsity witness call. -/
def mC3wList : SingleLinkObservationPartialList :=
  [(((0 : Int), (6 : Int)),
    ObservationPartial.mutualApprox 1 scC3w [(LinkEndType.transmitter, 1)]
      (bodyStateParameterId "A") []),
    (((20 : Int), (1 : Int)),
    ObservationPartial.mutualApprox 1 scC3w [(LinkEndType.receiver, 2)]
      paramGamma [])]

theorem claim_C3_sparsity_witness :
    (assembledKeys psC3w).Nodup ∧
    (mapLookup (6 * ((0 : Nat) : Int), (6 : Int)) mC3wList).isSome = true ∧
    (mapLookup ((30 : Int), ((3 : Nat) : Int)) mC3wList).isSome = false := by
  have h := claim_C3_sparsity envC3w linkABC psC3w true [] 0 0 mC3wList scC3w
    (by rfl) (by decide)
  refine ⟨by decide, ?_, ?_⟩
  · exact (h.1 0 (by decide) "A" (by rfl)).mpr (Or.inl (by decide))
  · have h3 := h.2.2.1 (30, paramVecPlain, 3) (by decide) (by rfl)
    cases hb : (mapLookup ((30 : Int), ((3 : Nat) : Int)) mC3wList).isSome with
    | false => rfl
    | true =>
      exfalso
      rcases h3.mp hb with h5 | h5
      · exact absurd h5 (by decide)
      · exact absurd h5 (by decide)

theorem mapInsert_map_fst {K V : Type} [DecidableEq K] (k : K) (v1 v2 : V)
    (m1 m2 : List (K × V)) (h : m1.map Prod.fst = m2.map Prod.fst) :
    (mapInsert k v1 m1).map Prod.fst = (mapInsert k v2 m2).map Prod.fst := by
  induction m1 generalizing m2 with
  | nil =>
    have h2 : m2 = [] := List.map_eq_nil_iff.mp h.symm
    subst h2
    rfl
  | cons e1 rest1 ih =>
    obtain ⟨k1, w1⟩ := e1
    cases m2 with
    | nil => exact absurd h (by simp)
    | cons e2 rest2 =>
      obtain ⟨k2, w2⟩ := e2
      simp only [List.map_cons, List.cons.injEq] at h
      obtain ⟨hk12, hrest⟩ := h
      subst hk12
      by_cases hkk : k = k1
      · simp only [mapInsert, if_pos hkk, List.map_cons, hrest]
      · simp only [mapInsert, if_neg hkk, List.map_cons, ih rest2 hrest]

theorem createWrtParameter_isSome_parallel (env : Env) (le : LinkEnds)
    (p : ParameterName) (sc1 sc2 : ScalingRecord)
    (ltcpo : List (List LightTimeCorrectionPartial)) :
    (createMutualApproximationPartialWrtParameter env le p sc1 ltcpo).isSome =
      (createMutualApproximationWithImpactParameterPartialWrtParameter env le
        p sc2 ltcpo).isSome := by
  by_cases hdep : 0 < (env.positionPartialsWrtParameter le p).length ∨
      0 < env.numLightTimeCorrectionPartialFunctions p ltcpo
  · rw [createMutualApproximationPartialWrtParameter,
      createMutualApproximationWithImpactParameterPartialWrtParameter,
      if_pos hdep, if_pos hdep]
    rfl
  · rw [createMutualApproximationPartialWrtParameter,
      createMutualApproximationWithImpactParameterPartialWrtParameter,
      if_neg hdep, if_neg hdep]

theorem createWrtBodyPosition_isSome_parallel (env : Env) (le : LinkEnds)
    (b : String) (sc1 sc2 : ScalingRecord)
    (ltcpo : List (List LightTimeCorrectionPartial)) :
    (createMutualApproximationPartialWrtBodyPosition env le b sc1
        ltcpo).isSome =
      (createMutualApproximationWithImpactParameterPartialWrtBodyPosition env
        le b sc2 ltcpo).isSome := by
  by_cases hdep : 0 < (env.positionPartialsWrtBody le b).length ∨
      0 < env.numLightTimeCorrectionPartialFunctions (bodyStateParameterId b)
        ltcpo
  · rw [createMutualApproximationPartialWrtBodyPosition,
      createMutualApproximationWithImpactParameterPartialWrtBodyPosition,
      if_pos hdep, if_pos hdep]
    rfl
  · rw [createMutualApproximationPartialWrtBodyPosition,
      createMutualApproximationWithImpactParameterPartialWrtBodyPosition,
      if_neg hdep, if_neg hdep]

theorem vectorParameterPartial_isSome_parallel (env : Env) (le : LinkEnds)
    (p : ParameterName) (sc1 sc2 : ScalingRecord)
    (ltcpo : List (List LightTimeCorrectionPartial)) :
    (vectorParameterPartial env le p sc1 ltcpo).isSome =
      (vectorParameterPartialWIP env le p sc2 ltcpo).isSome := by
  by_cases hlp : env.isParameterObservationLinkProperty p.fst = true
  · rw [vectorParameterPartial, vectorParameterPartialWIP,
      if_neg (by simp [hlp]), if_neg (by simp [hlp])]
    by_cases hex : env.linkPropertyPartialExists le p = true
    · rw [createObservationPartialWrtLinkProperty,
        createObservationPartialWrtLinkProperty, if_pos hex, if_pos hex]
      rfl
    · rw [createObservationPartialWrtLinkProperty,
        createObservationPartialWrtLinkProperty, if_neg hex, if_neg hex]
  · rw [vectorParameterPartial, vectorParameterPartialWIP,
      if_pos (by simp [hlp]), if_pos (by simp [hlp])]
    exact createWrtParameter_isSome_parallel env le p sc1 sc2 ltcpo

theorem initialStateParameterLoop_parallel (env : Env) (le : LinkEnds)
    (sc1 sc2 : ScalingRecord)
    (ltcpo : List (List LightTimeCorrectionPartial)) :
    ∀ (ps : List InitialStateParameter) (start : Int)
      (acc1 acc2 : SingleLinkObservationPartialList),
      acc1.map Prod.fst = acc2.map Prod.fst →
      (initialStateParameterLoop env le sc1 ltcpo ps start acc1).map
          (fun r => (r.1.map Prod.fst, r.2)) =
        (initialStateParameterLoopWIP env le sc2 ltcpo ps start acc2).map
          (fun r => (r.1.map Prod.fst, r.2)) := by
  intro ps
  induction ps with
  | nil =>
    intro start acc1 acc2 h
    simp only [initialStateParameterLoop, initialStateParameterLoopWIP,
      Except.map, h]
  | cons p rest ih =>
    intro start acc1 acc2 h
    cases hb : getAcceleratedBody p.parameterName with
    | none =>
      simp only [initialStateParameterLoop, initialStateParameterLoopWIP, hb,
        Except.map]
    | some b =>
      have hpar := createWrtBodyPosition_isSome_parallel env le b sc1 sc2 ltcpo
      cases hcp1 : createMutualApproximationPartialWrtBodyPosition env le b
          sc1 ltcpo with
      | none =>
        cases hcp2 :
            createMutualApproximationWithImpactParameterPartialWrtBodyPosition
              env le b sc2 ltcpo with
        | none =>
          simp only [initialStateParameterLoop, initialStateParameterLoopWIP,
            hb, hcp1, hcp2]
          exact ih (start + 6) acc1 acc2 h
        | some cp2 => rw [hcp1, hcp2] at hpar; simp at hpar
      | some cp1 =>
        cases hcp2 :
            createMutualApproximationWithImpactParameterPartialWrtBodyPosition
              env le b sc2 ltcpo with
        | none => rw [hcp1, hcp2] at hpar; simp at hpar
        | some cp2 =>
          simp only [initialStateParameterLoop, initialStateParameterLoopWIP,
            hb, hcp1, hcp2]
          exact ih (start + 6) _ _ (mapInsert_map_fst _ cp1 cp2 acc1 acc2 h)

theorem doubleParameterLoop_parallel (env : Env) (le : LinkEnds)
    (sc1 sc2 : ScalingRecord)
    (ltcpo : List (List LightTimeCorrectionPartial)) :
    ∀ (ds : List (Int × ParameterName))
      (acc1 acc2 : SingleLinkObservationPartialList),
      acc1.map Prod.fst = acc2.map Prod.fst →
      (doubleParameterLoop env le sc1 ltcpo ds acc1).map Prod.fst =
        (doubleParameterLoopWIP env le sc2 ltcpo ds acc2).map Prod.fst := by
  intro ds
  induction ds with
  | nil => intro acc1 acc2 h; exact h
  | cons d rest ih =>
    intro acc1 acc2 h
    obtain ⟨idx, pname⟩ := d
    have hpar := createWrtParameter_isSome_parallel env le pname sc1 sc2 ltcpo
    cases hcp1 : createMutualApproximationPartialWrtParameter env le pname sc1
        ltcpo with
    | none =>
      cases hcp2 :
          createMutualApproximationWithImpactParameterPartialWrtParameter env
            le pname sc2 ltcpo with
      | none =>
        simp only [doubleParameterLoop, doubleParameterLoopWIP, hcp1, hcp2]
        exact ih acc1 acc2 h
      | some cp2 => rw [hcp1, hcp2] at hpar; simp at hpar
    | some cp1 =>
      cases hcp2 :
          createMutualApproximationWithImpactParameterPartialWrtParameter env
            le pname sc2 ltcpo with
      | none => rw [hcp1, hcp2] at hpar; simp at hpar
      | some cp2 =>
        simp only [doubleParameterLoop, doubleParameterLoopWIP, hcp1, hcp2]
        exact ih _ _ (mapInsert_map_fst _ cp1 cp2 acc1 acc2 h)

theorem vectorParameterLoop_parallel (env : Env) (le : LinkEnds)
    (sc1 sc2 : ScalingRecord)
    (ltcpo : List (List LightTimeCorrectionPartial)) :
    ∀ (vs : List (Int × ParameterName × Nat))
      (acc1 acc2 : SingleLinkObservationPartialList),
      acc1.map Prod.fst = acc2.map Prod.fst →
      (vectorParameterLoop env le sc1 ltcpo vs acc1).map Prod.fst =
        (vectorParameterLoopWIP env le sc2 ltcpo vs acc2).map Prod.fst := by
  intro vs
  induction vs with
  | nil => intro acc1 acc2 h; exact h
  | cons v rest ih =>
    intro acc1 acc2 h
    obtain ⟨idx, pname, psize⟩ := v
    have hpar := vectorParameterPartial_isSome_parallel env le pname sc1 sc2
      ltcpo
    cases hcp1 : vectorParameterPartial env le pname sc1 ltcpo with
    | none =>
      cases hcp2 : vectorParameterPartialWIP env le pname sc2 ltcpo with
      | none =>
        simp only [vectorParameterLoop, vectorParameterLoopWIP, hcp1, hcp2]
        exact ih acc1 acc2 h
      | some cp2 => rw [hcp1, hcp2] at hpar; simp at hpar
    | some cp1 =>
      cases hcp2 : vectorParameterPartialWIP env le pname sc2 ltcpo with
      | none => rw [hcp1, hcp2] at hpar; simp at hpar
      | some cp2 =>
        simp only [vectorParameterLoop, vectorParameterLoopWIP, hcp1, hcp2]
        exact ih _ _ (mapInsert_map_fst _ cp1 cp2 acc1 acc2 h)

/-- The observable shape of a single-link assembly result: the thrown error,
or the list of (start index, size) keys of the returned block mapping. -/
def resultKeys
    (r : Except String (SingleLinkObservationPartialList × ScalingRecord)) :
    Except String (List (Int × Int)) :=
  r.map fun p => p.1.map Prod.fst

/-- C9: the single-valued and the two-valued single-link assembly functions
are in lock-step: on the same link ends, parameter set and correction groups
they raise equal errors under equal conditions and produce block mappings
with identical (start index, size) keys, differing only in the block value
type (and in the scaling object they construct). -/
theorem claim_C9_lockstep (env : Env) (le : LinkEnds)
    (ps : EstimatableParameterSet) (flag : Bool)
    (ltc : List (List LightTimeCorrection)) (dvi sid1 sid2 : Nat) :
    resultKeys (createMutualApproximationPartialsSingleLink env le ps flag ltc
        dvi sid1) =
      resultKeys
        (createMutualApproximationWithImpactParameterPartialsSingleLink env le
          ps ltc dvi sid2) := by
  by_cases hc : 0 < ltc.length ∧ ltc.length ≠ 2
  · rw [createMutualApproximationPartialsSingleLink,
      createMutualApproximationWithImpactParameterPartialsSingleLink,
      if_pos hc, if_pos hc]
  · rw [createMutualApproximationPartialsSingleLink,
      createMutualApproximationWithImpactParameterPartialsSingleLink,
      if_neg hc, if_neg hc]
    dsimp only
    have hpar := initialStateParameterLoop_parallel env le
      (if flag then
        (⟨ScalingVariant.mutualApproximationScaling, dvi, sid1⟩ : ScalingRecord)
      else
        ⟨ScalingVariant.modifiedMutualApproximationScaling, dvi, sid1⟩)
      (⟨ScalingVariant.mutualApproximationWithImpactParameterScaling, dvi,
        sid2⟩ : ScalingRecord)
      (ltc.map env.createLightTimeCorrectionPartials)
      ps.initialStateParameters 0 [] [] rfl
    cases h1 : initialStateParameterLoop env le
        (if flag then
          (⟨ScalingVariant.mutualApproximationScaling, dvi, sid1⟩ :
            ScalingRecord)
        else
          ⟨ScalingVariant.modifiedMutualApproximationScaling, dvi, sid1⟩)
        (ltc.map env.createLightTimeCorrectionPartials)
        ps.initialStateParameters 0 [] with
    | error e1 =>
      cases h2 : initialStateParameterLoopWIP env le
          (⟨ScalingVariant.mutualApproximationWithImpactParameterScaling, dvi,
            sid2⟩ : ScalingRecord)
          (ltc.map env.createLightTimeCorrectionPartials)
          ps.initialStateParameters 0 [] with
      | error e2 =>
        rw [h1] at hpar
        rw [h2] at hpar
        simp only [Except.map, Except.error.injEq] at hpar
        dsimp only
        simp only [resultKeys, Except.map, Except.error.injEq]
        exact hpar
      | ok r2 =>
        rw [h1] at hpar
        rw [h2] at hpar
        simp only [Except.map] at hpar
        exact Except.noConfusion hpar
    | ok r1 =>
      cases h2 : initialStateParameterLoopWIP env le
          (⟨ScalingVariant.mutualApproximationWithImpactParameterScaling, dvi,
            sid2⟩ : ScalingRecord)
          (ltc.map env.createLightTimeCorrectionPartials)
          ps.initialStateParameters 0 [] with
      | error e2 =>
        rw [h1] at hpar
        rw [h2] at hpar
        simp only [Except.map] at hpar
        exact Except.noConfusion hpar
      | ok r2 =>
        obtain ⟨l1, fi1⟩ := r1
        obtain ⟨l2, fi2⟩ := r2
        rw [h1] at hpar
        rw [h2] at hpar
        simp only [Except.map, Except.ok.injEq, Prod.mk.injEq] at hpar
        dsimp only
        simp only [resultKeys, Except.map, Except.ok.injEq]
        exact vectorParameterLoop_parallel env le _ _ _ ps.vectorParameters _ _
          (doubleParameterLoop_parallel env le _ _ _ ps.doubleParameters l1 l2
            hpar.1)

end Tudat
